import Mathlib

/-!
A shallow embedding of the tankio game server (Go) and proofs about it.

Conventions of the embedding:
* `float64` scalars are modelled as `ℚ`; the transcendental float operations
  (`math.Sqrt`, `math.Cos`, `math.Sin`, `math.Atan2`) are abstracted into a
  record `RealOps` threaded through the definitions, so every theorem holds
  for an arbitrary interpretation of those operations.
* `time.Time` and `time.Duration` are modelled as `ℤ` nanoseconds; the current
  wall-clock time (`time.Now()`) is passed explicitly as a parameter `now`.
* Go maps keyed by player id are modelled as association lists in a fixed
  iteration order; Go map insertion replaces an existing key in place.
* The package-level bullet id counter is threaded explicitly (a field of
  `Game`, a parameter of the weapon `Fire` functions).
-/

namespace Tankio

/-- Abstraction of the float library functions used by the source
(`math.Sqrt`, `math.Cos`, `math.Sin`, `math.Atan2`). -/
structure RealOps where
  sqrt : ℚ → ℚ
  cos : ℚ → ℚ
  sin : ℚ → ℚ
  atan2 : ℚ → ℚ → ℚ

/-- An interpretation sending every float library function to zero. -/
def zeroOps : RealOps := ⟨fun _ => 0, fun _ => 0, fun _ => 0, fun _ _ => 0⟩

/-- An interpretation with `sqrt = id` (so distances are squared distances),
`cos = 1`, `sin = 0` (so `FromAngle` points along the positive x axis). -/
def idOps : RealOps := ⟨fun q => q, fun _ => 1, fun _ => 0, fun _ _ => 0⟩

/-- Go conversion of a float to an integer type truncates toward zero
(used in `time.Duration(dt * float64(time.Second))`). -/
def goTrunc (q : ℚ) : ℤ :=
  if q < 0 then -Int.floor (-q) else Int.floor q

/-- vector.go: `Vector2` -/
structure Vector2 where
  X : ℚ
  Y : ℚ
deriving DecidableEq

/-- vector.go: `Vector2.Add` -/
def Vector2.Add (v other : Vector2) : Vector2 :=
  ⟨v.X + other.X, v.Y + other.Y⟩

/-- vector.go: `Vector2.Sub` -/
def Vector2.Sub (v other : Vector2) : Vector2 :=
  ⟨v.X - other.X, v.Y - other.Y⟩

/-- vector.go: `Vector2.Scale` -/
def Vector2.Scale (v : Vector2) (s : ℚ) : Vector2 :=
  ⟨v.X * s, v.Y * s⟩

/-- vector.go: `Vector2.Length` = `math.Sqrt(x*x + y*y)` -/
def Vector2.Length (ops : RealOps) (v : Vector2) : ℚ :=
  ops.sqrt (v.X * v.X + v.Y * v.Y)

/-- vector.go: `Vector2.Normalize` (zero vector maps to itself) -/
def Vector2.Normalize (ops : RealOps) (v : Vector2) : Vector2 :=
  let l := v.Length ops
  if l = 0 then ⟨0, 0⟩ else ⟨v.X / l, v.Y / l⟩

/-- vector.go: `Vector2.Distance` -/
def Vector2.Distance (ops : RealOps) (v other : Vector2) : ℚ :=
  (v.Sub other).Length ops

/-- vector.go: `Vector2.Angle` = `math.Atan2(v.Y, v.X)` -/
def Vector2.Angle (ops : RealOps) (v : Vector2) : ℚ :=
  ops.atan2 v.Y v.X

/-- vector.go: `FromAngle` = `(cos angle, sin angle)` -/
def FromAngle (ops : RealOps) (angle : ℚ) : Vector2 :=
  ⟨ops.cos angle, ops.sin angle⟩

/-- vector.go: `Rectangle` -/
structure Rectangle where
  X : ℚ
  Y : ℚ
  Width : ℚ
  Height : ℚ
deriving DecidableEq

/-- vector.go: `Rectangle.Contains` (inclusive bounds) -/
def Rectangle.Contains (r : Rectangle) (p : Vector2) : Bool :=
  decide (p.X ≥ r.X) && decide (p.X ≤ r.X + r.Width) &&
  decide (p.Y ≥ r.Y) && decide (p.Y ≤ r.Y + r.Height)

/-- vector.go: `Circle` -/
structure Circle where
  Center : Vector2
  Radius : ℚ
deriving DecidableEq

/-- vector.go: `Circle.Contains` -/
def Circle.Contains (ops : RealOps) (c : Circle) (p : Vector2) : Bool :=
  decide (c.Center.Distance ops p ≤ c.Radius)

/-- vector.go: `Circle.Intersects` (sum-of-radii check) -/
def Circle.Intersects (ops : RealOps) (c other : Circle) : Bool :=
  decide (c.Center.Distance ops other.Center ≤ c.Radius + other.Radius)

/-- map.go: `MapConfig` -/
structure MapConfig where
  Width : ℚ
  Height : ℚ
deriving DecidableEq

/-- map.go: `DefaultMap` -/
def DefaultMap : MapConfig := ⟨1200, 800⟩

/-- map.go: `MapConfig.GetBounds` -/
def MapConfig.GetBounds (m : MapConfig) : Rectangle :=
  ⟨0, 0, m.Width, m.Height⟩

/-- map.go: `MapConfig.GetSpawnPoints` (left side, right side) -/
def MapConfig.GetSpawnPoints (m : MapConfig) : List Vector2 :=
  [⟨100, m.Height / 2⟩, ⟨m.Width - 100, m.Height / 2⟩]

/-- weapon.go: `WeaponType` (the two constants `WeaponCannon`, `WeaponMortar`) -/
inductive WeaponType where
  | cannon
  | mortar
deriving DecidableEq

/-- bullet.go: `BulletType` (the two constants `BulletNormal`, `BulletMortar`) -/
inductive BulletType where
  | normal
  | mortar
deriving DecidableEq

/-- bullet.go: `Bullet`. The Go field `Type` is called `ty` here (`Type` is a
Lean keyword). Times are `ℤ` nanoseconds. -/
structure Bullet where
  ID : String
  OwnerID : String
  Position : Vector2
  Velocity : Vector2
  ty : BulletType
  Damage : ℤ
  CreatedAt : ℤ
  MaxAge : ℤ
  ImpactPos : Vector2
  ImpactTime : ℤ
  ImpactRadius : ℚ
  HasImpacted : Bool
deriving DecidableEq

/-- weapon.go: the package-level `generateID` after `idCounter++`;
the argument is the already-incremented counter value. -/
def generateID (n : ℕ) : String :=
  ⟨[Char.ofNat ('A'.toNat + n % 26), Char.ofNat ('0'.toNat + n % 10)]⟩

/-- weapon.go: `Cannon` (times in `ℤ` nanoseconds; the Go zero `time.Time`
of a fresh cannon is modelled as `0`). -/
structure Cannon where
  lastFired : ℤ
  cooldown : ℤ
deriving DecidableEq

/-- weapon.go: `NewCannon` (cooldown 500ms). -/
def NewCannon : Cannon := ⟨0, 500000000⟩

/-- weapon.go: `Cannon.CanFire` = `time.Since(lastFired) ≥ cooldown`. -/
def Cannon.CanFire (c : Cannon) (now : ℤ) : Bool :=
  decide (now - c.lastFired ≥ c.cooldown)

/-- weapon.go: `Cannon.Fire`; returns the produced bullet (if any), the
updated cannon, and the updated package-level id counter. -/
def Cannon.Fire (ops : RealOps) (c : Cannon) (now : ℤ) (origin : Vector2)
    (angle : ℚ) (ownerID : String) (ctr : ℕ) : Option Bullet × Cannon × ℕ :=
  if ¬ c.CanFire now then (none, c, ctr)
  else
    let c' : Cannon := { c with lastFired := now }
    let ctr' := ctr + 1
    let direction := FromAngle ops angle
    (some { ID := generateID ctr'
            OwnerID := ownerID
            Position := origin.Add (direction.Scale 30)
            Velocity := direction.Scale 600
            ty := BulletType.normal
            Damage := 100
            CreatedAt := now
            MaxAge := 3000000000
            ImpactPos := ⟨0, 0⟩
            ImpactTime := 0
            ImpactRadius := 0
            HasImpacted := false }, c', ctr')

/-- weapon.go: `Cannon.Update` (no special update logic). -/
def Cannon.Update (c : Cannon) (_dt : ℚ) : Cannon := c

/-- weapon.go: `Mortar`. -/
structure Mortar where
  lastFired : ℤ
  cooldown : ℤ
  ammo : ℤ
  maxAmmo : ℤ
  rechargeTime : ℤ
  rechargeTimer : ℤ
deriving DecidableEq

/-- weapon.go: `NewMortar` (3s cooldown, 3 charges, 10s recharge). -/
def NewMortar : Mortar :=
  { lastFired := 0
    cooldown := 3000000000
    ammo := 3
    maxAmmo := 3
    rechargeTime := 10000000000
    rechargeTimer := 0 }

/-- weapon.go: `Mortar.CanFire` = `ammo > 0 && time.Since(lastFired) ≥ cooldown`. -/
def Mortar.CanFire (m : Mortar) (now : ℤ) : Bool :=
  decide (m.ammo > 0) && decide (now - m.lastFired ≥ m.cooldown)

/-- weapon.go: `Mortar.Fire`. -/
def Mortar.Fire (ops : RealOps) (m : Mortar) (now : ℤ) (origin : Vector2)
    (angle : ℚ) (ownerID : String) (ctr : ℕ) : Option Bullet × Mortar × ℕ :=
  if ¬ m.CanFire now then (none, m, ctr)
  else
    let m' : Mortar := { m with lastFired := now, ammo := m.ammo - 1 }
    let ctr' := ctr + 1
    let direction := FromAngle ops angle
    let impactPos := origin.Add (direction.Scale 300)
    (some { ID := generateID ctr'
            OwnerID := ownerID
            Position := origin
            Velocity := ⟨0, 0⟩
            ty := BulletType.mortar
            Damage := 100
            CreatedAt := now
            MaxAge := 4000000000
            ImpactPos := impactPos
            ImpactTime := now + 3000000000
            ImpactRadius := 50
            HasImpacted := false }, m', ctr')

/-- weapon.go: `Mortar.Update` (recharge one unit per elapsed recharge
interval; excess progress is discarded on increment). -/
def Mortar.Update (m : Mortar) (dt : ℚ) : Mortar :=
  if m.ammo < m.maxAmmo then
    let timer' := m.rechargeTimer + goTrunc (dt * 1000000000)
    if timer' ≥ m.rechargeTime then
      { m with ammo := m.ammo + 1, rechargeTimer := 0 }
    else
      { m with rechargeTimer := timer' }
  else m

/-- bullet.go: `Bullet.Update`; returns `(keep, updatedBullet)` where
`keep = false` means the bullet should be removed. -/
def Bullet.Update (b : Bullet) (now : ℤ) (dt : ℚ) : Bool × Bullet :=
  if now - b.CreatedAt > b.MaxAge then (false, b)
  else
    match b.ty with
    | BulletType.normal =>
        (true, { b with Position := b.Position.Add (b.Velocity.Scale dt) })
    | BulletType.mortar =>
        if now > b.ImpactTime ∧ b.HasImpacted = false then
          (true, { b with HasImpacted := true, Position := b.ImpactPos })
        else (true, b)

/-- bullet.go: `Bullet.GetHitbox`. -/
def Bullet.GetHitbox (b : Bullet) : Circle :=
  let radius : ℚ := if b.ty = BulletType.mortar ∧ b.HasImpacted then b.ImpactRadius else 5
  ⟨b.Position, radius⟩

/-- bullet.go: `Bullet.IsActive`. -/
def Bullet.IsActive (b : Bullet) : Bool :=
  match b.ty with
  | BulletType.normal => true
  | BulletType.mortar => b.HasImpacted

/-- bullet.go: `Bullet.GetFlightProgress` (`time.Since` made explicit via `now`;
float division is modelled as `ℚ` division). -/
def Bullet.GetFlightProgress (b : Bullet) (now : ℤ) : ℚ :=
  if b.ty ≠ BulletType.mortar then 1
  else
    let totalFlight : ℚ := ((b.ImpactTime - b.CreatedAt : ℤ) : ℚ)
    let elapsed : ℚ := ((now - b.CreatedAt : ℤ) : ℚ)
    let progress := elapsed / totalFlight
    if progress > 1 then 1 else progress

/-- bullet.go: `BulletState`. -/
structure BulletState where
  ID : String
  OwnerID : String
  Position : Vector2
  ty : BulletType
  ImpactPos : Vector2
  FlightProgress : ℚ
  ImpactRadius : ℚ
deriving DecidableEq

/-- bullet.go: `Bullet.ToState`. -/
def Bullet.ToState (b : Bullet) (now : ℤ) : BulletState :=
  { ID := b.ID
    OwnerID := b.OwnerID
    Position := b.Position
    ty := b.ty
    ImpactPos := b.ImpactPos
    FlightProgress := b.GetFlightProgress now
    ImpactRadius := b.ImpactRadius }

/-- tank.go: `TankSpeed` (pixels per second). -/
def TankSpeed : ℚ := 200

/-- tank.go: `TankSize` (tank width/height). -/
def TankSize : ℚ := 40

/-- tank.go: `InputState`. -/
structure InputState where
  Up : Bool
  Down : Bool
  Left : Bool
  Right : Bool
  MouseX : ℚ
  MouseY : ℚ
  Firing : Bool
deriving DecidableEq

/-- The Go zero value of `InputState`. -/
def InputState.zero : InputState := ⟨false, false, false, false, 0, 0, false⟩

/-- tank.go: `Tank`. -/
structure Tank where
  ID : String
  Position : Vector2
  Rotation : ℚ
  TurretAngle : ℚ
  Health : ℤ
  MaxHealth : ℤ
  Speed : ℚ
  ActiveWeapon : WeaponType
  Cannon : Cannon
  Mortar : Mortar
  Input : InputState
deriving DecidableEq

/-- tank.go: `NewTank`. -/
def NewTank (id : String) (pos : Vector2) : Tank :=
  { ID := id
    Position := pos
    Rotation := 0
    TurretAngle := 0
    Health := 100
    MaxHealth := 100
    Speed := TankSpeed
    ActiveWeapon := WeaponType.cannon
    Cannon := NewCannon
    Mortar := NewMortar
    Input := InputState.zero }

/-- tank.go `Tank.Update`, movement direction derived from the four
directional input flags (`Up` decrements Y, `Down` increments Y, `Left`
decrements X, `Right` increments X). -/
def moveDirOfInput (inp : InputState) : Vector2 :=
  ⟨(if inp.Right then 1 else 0) - (if inp.Left then 1 else 0),
   (if inp.Down then 1 else 0) - (if inp.Up then 1 else 0)⟩

/-- tank.go `Tank.Update`, clamp of a moved position to the map bounds inset
by half the tank size (`halfSize := TankSize / 2`). -/
def clampToBounds (mapBounds : Rectangle) (newPos : Vector2) : Vector2 :=
  ⟨max (mapBounds.X + TankSize / 2)
     (min newPos.X (mapBounds.X + mapBounds.Width - TankSize / 2)),
   max (mapBounds.Y + TankSize / 2)
     (min newPos.Y (mapBounds.Y + mapBounds.Height - TankSize / 2))⟩

/-- tank.go: `Tank.Update` (movement from input flags, clamp to map bounds
inset by half the tank size, turret toward mouse, weapon upkeep). -/
def Tank.Update (ops : RealOps) (t : Tank) (dt : ℚ) (mapBounds : Rectangle) : Tank :=
  let moveDir := moveDirOfInput t.Input
  let t1 :=
    if moveDir.X ≠ 0 ∨ moveDir.Y ≠ 0 then
      let md := moveDir.Normalize ops
      let newPos := t.Position.Add (md.Scale (t.Speed * dt))
      { t with Rotation := md.Angle ops, Position := clampToBounds mapBounds newPos }
    else t
  let mousePos : Vector2 := ⟨t1.Input.MouseX, t1.Input.MouseY⟩
  let toMouse := mousePos.Sub t1.Position
  let t2 := { t1 with TurretAngle := toMouse.Angle ops }
  { t2 with Cannon := t2.Cannon.Update dt, Mortar := t2.Mortar.Update dt }

/-- tank.go: `Tank.Fire` (dispatch on the active weapon; the fired weapon's
updated state is stored back in the tank, and the package id counter is
threaded through). -/
def Tank.Fire (ops : RealOps) (t : Tank) (now : ℤ) (ctr : ℕ) :
    Option Bullet × Tank × ℕ :=
  match t.ActiveWeapon with
  | WeaponType.cannon =>
      let r := t.Cannon.Fire ops now t.Position t.TurretAngle t.ID ctr
      (r.1, { t with Cannon := r.2.1 }, r.2.2)
  | WeaponType.mortar =>
      let r := t.Mortar.Fire ops now t.Position t.TurretAngle t.ID ctr
      (r.1, { t with Mortar := r.2.1 }, r.2.2)

/-- tank.go: `Tank.SwitchWeapon`. -/
def Tank.SwitchWeapon (t : Tank) (weapon : WeaponType) : Tank :=
  { t with ActiveWeapon := weapon }

/-- tank.go: `Tank.TakeDamage` (subtract, clamp below at 0). -/
def Tank.TakeDamage (t : Tank) (amount : ℤ) : Tank :=
  let h := t.Health - amount
  { t with Health := if h < 0 then 0 else h }

/-- tank.go: `Tank.IsAlive`. -/
def Tank.IsAlive (t : Tank) : Bool :=
  decide (t.Health > 0)

/-- tank.go: `Tank.GetHitbox`. -/
def Tank.GetHitbox (t : Tank) : Circle :=
  ⟨t.Position, TankSize / 2⟩

/-- tank.go: `TankState`. -/
structure TankState where
  ID : String
  Position : Vector2
  Rotation : ℚ
  TurretAngle : ℚ
  Health : ℤ
  MaxHealth : ℤ
  ActiveWeapon : WeaponType
  MortarAmmo : ℤ
  MortarMaxAmmo : ℤ
deriving DecidableEq

/-- tank.go: `Tank.ToState`. -/
def Tank.ToState (t : Tank) : TankState :=
  { ID := t.ID
    Position := t.Position
    Rotation := t.Rotation
    TurretAngle := t.TurretAngle
    Health := t.Health
    MaxHealth := t.MaxHealth
    ActiveWeapon := t.ActiveWeapon
    MortarAmmo := t.Mortar.ammo
    MortarMaxAmmo := t.Mortar.maxAmmo }

/-- game.go: `GameState` (the three constants `StateWaiting`, `StatePlaying`,
`StateGameOver` of the Go string type). -/
inductive GameState where
  | waiting
  | playing
  | gameover
deriving DecidableEq

/-- game.go: `StateWaiting`. -/
def StateWaiting : GameState := GameState.waiting

/-- game.go: `StatePlaying`. -/
def StatePlaying : GameState := GameState.playing

/-- game.go: `StateGameOver`. -/
def StateGameOver : GameState := GameState.gameover

/-- game.go: `PlayerInput` (the action is a Go string: `"input"`, `"fire"`,
`"switch_weapon"`). -/
structure PlayerInput where
  PlayerID : String
  Input : InputState
  Action : String
  Weapon : WeaponType

/-- game.go: `Game` (the mutex, channels and loop flags are concurrency
plumbing and are not part of the state embedding; the package-level bullet
id counter `idCounter` is carried as a field). -/
structure Game where
  State : GameState
  Map : MapConfig
  Tanks : List Tank
  Bullets : List Bullet
  WinnerID : String
  idCounter : ℕ

/-- game.go: `NewGame`. -/
def NewGame : Game :=
  { State := StateWaiting
    Map := DefaultMap
    Tanks := []
    Bullets := []
    WinnerID := ""
    idCounter := 0 }

/-- Go map lookup on the tanks map. -/
def findTank (ts : List Tank) (pid : String) : Option Tank :=
  ts.find? (fun t => t.ID = pid)

/-- Go map insertion on the tanks map: replace in place if the key exists,
otherwise append. -/
def tanksInsert (ts : List Tank) (t : Tank) : List Tank :=
  if ts.any (fun u => u.ID = t.ID) then
    ts.map (fun u => if u.ID = t.ID then t else u)
  else ts ++ [t]

/-- Replace the tank with the given id. -/
def tanksReplace (ts : List Tank) (pid : String) (t : Tank) : List Tank :=
  ts.map (fun u => if u.ID = pid then t else u)

/-- game.go: `Game.AddPlayer`; returns the updated game and the Go return
value. The out-of-range index into the spawn-point slice cannot occur
(guarded by the capacity check) and is modelled by `getD`. -/
def Game.AddPlayer (g : Game) (playerID : String) : Game × Bool :=
  if g.Tanks.length ≥ 2 then (g, false)
  else
    let spawnPoints := g.Map.GetSpawnPoints
    let spawnIndex := g.Tanks.length
    let tank := NewTank playerID (spawnPoints.getD spawnIndex ⟨0, 0⟩)
    let tanks' := tanksInsert g.Tanks tank
    let g' := { g with Tanks := tanks' }
    if tanks'.length = 2 ∧ g.State = StateWaiting then
      ({ g' with State := StatePlaying }, true)
    else (g', true)

/-- game.go: `Game.RemovePlayer` (mid-game departure hands the win to the
remaining player; Go's map iteration to find it is modelled by the list
head). -/
def Game.RemovePlayer (g : Game) (playerID : String) : Game :=
  let tanks' := g.Tanks.filter (fun t => t.ID ≠ playerID)
  let g' := { g with Tanks := tanks' }
  if g.State = StatePlaying ∧ tanks'.length = 1 then
    match tanks' with
    | [] => { g' with State := StateGameOver }
    | t :: _ => { g' with State := StateGameOver, WinnerID := t.ID }
  else g'

/-- game.go: `Game.processInput` (the `fire` action calls `time.Now()`
inside the weapon, made explicit via `now`). -/
def Game.processInput (ops : RealOps) (g : Game) (input : PlayerInput)
    (now : ℤ) : Game :=
  match findTank g.Tanks input.PlayerID with
  | none => g
  | some tank =>
    if input.Action = "input" then
      { g with Tanks := tanksReplace g.Tanks input.PlayerID { tank with Input := input.Input } }
    else if input.Action = "fire" then
      let r := tank.Fire ops now g.idCounter
      match r.1 with
      | some b =>
        { g with Tanks := tanksReplace g.Tanks input.PlayerID r.2.1, idCounter := r.2.2,
                 Bullets := g.Bullets ++ [b] }
      | none =>
        { g with Tanks := tanksReplace g.Tanks input.PlayerID r.2.1, idCounter := r.2.2 }
    else if input.Action = "switch_weapon" then
      { g with Tanks := tanksReplace g.Tanks input.PlayerID (tank.SwitchWeapon input.Weapon) }
    else g

/-- game.go `Game.update`, tank loop: update each tank, then auto-fire if the
mouse button is held; the fresh bullets are appended to the bullet list and
the id counter is threaded through. -/
def updateTanksLoop (ops : RealOps) (now : ℤ) (dt : ℚ) (bounds : Rectangle) :
    List Tank → List Bullet → ℕ → List Tank × List Bullet × ℕ
  | [], bs, ctr => ([], bs, ctr)
  | t :: rest, bs, ctr =>
    let t1 := t.Update ops dt bounds
    let fired : Tank × List Bullet × ℕ :=
      if t1.Input.Firing then
        let r := t1.Fire ops now ctr
        match r.1 with
        | some b => (r.2.1, bs ++ [b], r.2.2)
        | none => (r.2.1, bs, r.2.2)
      else (t1, bs, ctr)
    let r2 := updateTanksLoop ops now dt bounds rest fired.2.1 fired.2.2
    (fired.1 :: r2.1, r2.2)

/-- game.go `Game.update`, bullet loop: update each bullet and retain it only
if it survives and is still in bounds (mortar shells are retained regardless
of position). -/
def updateBulletsLoop (now : ℤ) (dt : ℚ) (bounds : Rectangle) :
    List Bullet → List Bullet
  | [] => []
  | b :: rest =>
    let (keep, b') := b.Update now dt
    if keep then
      if bounds.Contains b'.Position ∨ b'.ty = BulletType.mortar then
        b' :: updateBulletsLoop now dt bounds rest
      else updateBulletsLoop now dt bounds rest
    else updateBulletsLoop now dt bounds rest

/-- game.go `Game.checkCollisions`, inner loop: index of the first tank that
is not skipped by the self-hit exemption and whose hitbox intersects the
bullet's hitbox. -/
def scanTanks (ops : RealOps) (b : Bullet) (hb : Circle) : List Tank → Option ℕ
  | [] => none
  | t :: rest =>
    if b.OwnerID = t.ID ∧ b.ty = BulletType.normal then
      (scanTanks ops b hb rest).map (· + 1)
    else if hb.Intersects ops t.GetHitbox then some 0
    else (scanTanks ops b hb rest).map (· + 1)

/-- Apply `Tank.TakeDamage` to the tank at the given position in the list. -/
def damageAt : List Tank → ℕ → ℤ → List Tank
  | [], _, _ => []
  | t :: rest, 0, d => t.TakeDamage d :: rest
  | t :: rest, n + 1, d => t :: damageAt rest n d

/-- game.go `Game.checkCollisions`, game-over bookkeeping after a hit on the
tank at index `j`: if the damaged victim is dead, the state becomes GameOver
and the first other tank (in iteration order) becomes the winner. -/
def gameOverUpdate (ts' : List Tank) (j : ℕ) (st : GameState) (w : String) :
    GameState × String :=
  match ts'.get? j with
  | some victim =>
    if victim.IsAlive then (st, w)
    else
      (StateGameOver,
       match ts'.find? (fun u : Tank => u.ID ≠ victim.ID) with
       | some u => u.ID
       | none => w)
  | none => (st, w)

/-- game.go `Game.checkCollisions`, outer loop over the bullets: each active
bullet is tested against the tanks; on the first hit the damage is applied,
the bullet is consumed, and a dead victim ends the game with the first other
tank as winner. Returns the surviving bullets, the updated tanks, and the
updated state and winner id. -/
def collideBullets (ops : RealOps) :
    List Bullet → List Tank → GameState → String →
    List Bullet × List Tank × GameState × String
  | [], ts, st, w => ([], ts, st, w)
  | b :: rest, ts, st, w =>
    if b.IsActive then
      match scanTanks ops b b.GetHitbox ts with
      | none =>
        let r := collideBullets ops rest ts st w
        (b :: r.1, r.2)
      | some j =>
        let ts' := damageAt ts j b.Damage
        let stw := gameOverUpdate ts' j st w
        collideBullets ops rest ts' stw.1 stw.2
    else
      let r := collideBullets ops rest ts st w
      (b :: r.1, r.2)

/-- game.go: `Game.checkCollisions`. -/
def Game.checkCollisions (ops : RealOps) (g : Game) : Game :=
  let r := collideBullets ops g.Bullets g.Tanks g.State g.WinnerID
  { g with Bullets := r.1, Tanks := r.2.1, State := r.2.2.1, WinnerID := r.2.2.2 }

/-- game.go: `Game.update` (one tick: no-op unless Playing; update tanks with
auto-fire, update bullets with bounds retention, then resolve collisions). -/
def Game.update (ops : RealOps) (g : Game) (now : ℤ) (dt : ℚ) : Game :=
  if g.State ≠ StatePlaying then g
  else
    let bounds := g.Map.GetBounds
    let r := updateTanksLoop ops now dt bounds g.Tanks g.Bullets g.idCounter
    let bs' := updateBulletsLoop now dt bounds r.2.1
    Game.checkCollisions ops { g with Tanks := r.1, Bullets := bs', idCounter := r.2.2 }

/-- game.go: `GameStateMessage` (the tanks map is an association list in the
game's iteration order; the Go field `Type` is called `MsgType` here, `Type`
being a Lean keyword). -/
structure GameStateMessage where
  MsgType : String
  State : GameState
  Tanks : List (String × TankState)
  Bullets : List BulletState
  Map : MapConfig
  WinnerID : String
deriving DecidableEq

/-- game.go: `Game.GetState` (the flight progress of each bullet depends on
`time.Now()`, made explicit via `now`). -/
def Game.GetState (g : Game) (now : ℤ) : GameStateMessage :=
  { MsgType := "game_state"
    State := g.State
    Tanks := g.Tanks.map (fun t => (t.ID, t.ToState))
    Bullets := g.Bullets.map (fun b => b.ToState now)
    Map := g.Map
    WinnerID := g.WinnerID }

/-- One externally observable operation on a `Game`, as claim C1 quantifies
over them: a join, a leave, a processed input event, or a tick. -/
inductive GOp where
  | add (playerID : String)
  | remove (playerID : String)
  | input (inp : PlayerInput) (now : ℤ)
  | tick (now : ℤ) (dt : ℚ)

/-- Apply one operation to a game. -/
def applyGOp (ops : RealOps) (g : Game) : GOp → Game
  | GOp.add pid => (g.AddPlayer pid).1
  | GOp.remove pid => g.RemovePlayer pid
  | GOp.input inp now => g.processInput ops inp now
  | GOp.tick now dt => g.update ops now dt

/-- Run a finite sequence of operations from a starting game. -/
def runGame (ops : RealOps) (g : Game) : List GOp → Game
  | [] => g
  | op :: rest => runGame ops (applyGOp ops g op) rest

/-- manager.go: `MaxLobbies`. -/
def MaxLobbies : ℕ := 5

/-- manager.go: `LobbyCodeLength`. -/
def LobbyCodeLength : ℕ := 4

/-- lobby.go: `Lobby` (only the code is state the registry claims depend on;
connections, channels and the owned game are concurrency plumbing). -/
structure Lobby where
  Code : String
deriving DecidableEq

/-- lobby.go: `NewLobby` (restricted to the code field). -/
def NewLobby (code : String) : Lobby := ⟨code⟩

/-- manager.go: `LobbyManager` (the lobbies map as an association list keyed
by code, in insertion order). -/
structure LobbyManager where
  lobbies : List (String × Lobby)
deriving DecidableEq

/-- manager.go: the alphabet of `generateLobbyCode`
(`"ABCDEFGHJKLMNPQRSTUVWXYZ23456789"`). -/
def lobbyChars : List Char := "ABCDEFGHJKLMNPQRSTUVWXYZ23456789".toList

/-- manager.go: `generateLobbyCode`, applied to the four random bytes read
from `crypto/rand`: each byte indexes the alphabet modulo its length. -/
def generateLobbyCode (bytes : List ℕ) : String :=
  ⟨bytes.map (fun n => lobbyChars.getD (n % lobbyChars.length) 'A')⟩

/-- manager.go `CreateLobby`, code-generation loop: try successive draws from
the random stream until one is not already a live lobby code; `fuel` bounds
the retries so the definition is total (`none` models the loop not finding a
fresh code within `fuel` draws). -/
def findFreshCode (codes : List String) (stream : ℕ → List ℕ) :
    ℕ → ℕ → Option String
  | _, 0 => none
  | k, fuel + 1 =>
    let code := generateLobbyCode (stream k)
    if code ∈ codes then findFreshCode codes stream (k + 1) fuel
    else some code

/-- manager.go: `LobbyManager.CreateLobby`. The stream of 4-byte draws from
`crypto/rand` is a parameter; `none` models the (probability-zero-in-practice)
case that the generation loop exhausts its fuel. Starting the lobby goroutine
has no effect on registry state and is not modelled. -/
def LobbyManager.CreateLobby (lm : LobbyManager) (stream : ℕ → List ℕ)
    (fuel : ℕ) : Option (Except String Lobby × LobbyManager) :=
  if lm.lobbies.length ≥ MaxLobbies then
    some (Except.error "maximum number of lobbies reached (5)", lm)
  else
    match findFreshCode (lm.lobbies.map Prod.fst) stream 0 fuel with
    | none => none
    | some code =>
      let lobby := NewLobby code
      some (Except.ok lobby, ⟨lm.lobbies ++ [(code, lobby)]⟩)

/-- Run a bullet through a sequence of `(now, dt)` updates; the flag is true
iff every update kept the bullet alive. -/
def Bullet.runUpdates (b : Bullet) : List (ℤ × ℚ) → Bool × Bullet
  | [] => (true, b)
  | p :: rest =>
    let (keep, b') := b.Update p.1 p.2
    let (keep', b'') := b'.runUpdates rest
    (keep && keep', b'')

/-- One operation on a single tank, as claim C2 quantifies over them: a
per-tick update, a damage application, or receipt of a new input state. -/
inductive TankOp where
  | update (dt : ℚ)
  | damage (amount : ℤ)
  | setInput (inp : InputState)
deriving DecidableEq

/-- Apply one tank operation. -/
def applyTankOp (ops : RealOps) (bounds : Rectangle) (t : Tank) : TankOp → Tank
  | TankOp.update dt => t.Update ops dt bounds
  | TankOp.damage amount => t.TakeDamage amount
  | TankOp.setInput inp => { t with Input := inp }

/-- Run a tank through a sequence of operations. -/
def runTank (ops : RealOps) (bounds : Rectangle) (t : Tank) : List TankOp → Tank
  | [] => t
  | op :: rest => runTank ops bounds (applyTankOp ops bounds t op) rest

/-- A damage operation carries a non-negative amount (claim C2's hypothesis);
other operations are unconstrained. -/
def dmgNonneg : TankOp → Prop
  | TankOp.damage amount => 0 ≤ amount
  | _ => True

instance : DecidablePred dmgNonneg := by
  intro op
  cases op <;> simp only [dmgNonneg] <;> infer_instance

/-- One operation on a mortar, as claim C4 quantifies over them: a fire
attempt at a given time, or a per-tick upkeep. The projectile parameters
(origin, angle, owner, id counter) do not influence the mortar's state and
are fixed by the harness. -/
inductive MortarOp where
  | fire (now : ℤ)
  | upd (dt : ℚ)
deriving DecidableEq

/-- Apply one mortar operation. -/
def applyMortarOp (ops : RealOps) (m : Mortar) : MortarOp → Mortar
  | MortarOp.fire now => (m.Fire ops now ⟨0, 0⟩ 0 "" 0).2.1
  | MortarOp.upd dt => m.Update dt

/-- Run a mortar through a sequence of operations. -/
def runMortar (ops : RealOps) (m : Mortar) : List MortarOp → Mortar
  | [] => m
  | op :: rest => runMortar ops (applyMortarOp ops m op) rest

/-- A concrete mortar shell: exactly the bullet `Mortar.Fire` produces under
`idOps` at time 10s from origin `(100, 400)` at angle 0 for owner `"A"`. -/
def mortarBullet0 : Bullet :=
  { ID := "B1"
    OwnerID := "A"
    Position := ⟨100, 400⟩
    Velocity := ⟨0, 0⟩
    ty := BulletType.mortar
    Damage := 100
    CreatedAt := 10000000000
    MaxAge := 4000000000
    ImpactPos := ⟨400, 400⟩
    ImpactTime := 13000000000
    ImpactRadius := 50
    HasImpacted := false }

/-- A game holding one in-flight mortar shell (used to observe snapshots). -/
def gameWithMortar : Game :=
  { NewGame with Bullets := [mortarBullet0] }

/-- Claim C10: the bullet id generator is periodic with period 130 — the id
produced at counter `n + 130` equals the id produced at counter `n` — and
consequently two distinct counter values (1 and 131, i.e. once more than 130
bullets have been created) produce the same id. -/
theorem C10_generateID_periodic :
    (∀ n : ℕ, generateID (n + 130) = generateID n) ∧
    (∃ m k : ℕ, m ≠ k ∧ generateID m = generateID k) := by
  constructor
  · intro n
    have h26 : (n + 130) % 26 = n % 26 := by omega
    have h10 : (n + 130) % 10 = n % 10 := by omega
    simp [generateID, h26, h10]
  · exact ⟨1, 131, by decide, by decide⟩

/-- Claim C5 counterexample: the mortar shell produced by `Mortar.Fire` at
time 10s (impact time 13s) is updated at exactly its impact time and is still
not collision-active afterwards (the code requires the clock to be strictly
past the impact time), refuting "always collision-active at and after its
impact time". -/
theorem C5_counterexample :
    (NewMortar.Fire idOps 10000000000 ⟨100, 400⟩ 0 "A" 0).1 = some mortarBullet0 ∧
    mortarBullet0.ty = BulletType.mortar ∧
    (mortarBullet0.Update mortarBullet0.ImpactTime 1).1 = true ∧
    (mortarBullet0.Update mortarBullet0.ImpactTime 1).2.IsActive = false := by
  refine ⟨?_, rfl, ?_, ?_⟩
  · simp +decide [Mortar.Fire, Mortar.CanFire, NewMortar, idOps, FromAngle, Vector2.Scale,
      Vector2.Add, mortarBullet0, generateID]
    norm_num
  · simp +decide [Bullet.Update, mortarBullet0]
  · simp +decide [Bullet.Update, Bullet.IsActive, mortarBullet0]

/-- Claim C5 (amended): a delayed-impact projectile is never collision-active
at or before its impact time (updates at such times leave it unchanged); an
update strictly after its impact time (within its lifetime) marks it impacted,
and an impacted mortar shell is collision-active with the explosion radius
`ImpactRadius` as its hit radius, and stays impacted forever. -/
theorem C5_mortar_activation (b : Bullet) (hty : b.ty = BulletType.mortar) :
    (∀ ts : List (ℤ × ℚ), b.HasImpacted = false → (∀ p ∈ ts, p.1 ≤ b.ImpactTime) →
      (b.runUpdates ts).2 = b ∧ (b.runUpdates ts).2.IsActive = false) ∧
    (∀ now dt, b.HasImpacted = false → b.ImpactTime < now → now - b.CreatedAt ≤ b.MaxAge →
      (b.Update now dt).1 = true ∧ (b.Update now dt).2.HasImpacted = true) ∧
    (∀ b' : Bullet, b'.ty = BulletType.mortar → ∀ now dt, b'.HasImpacted = true →
      (b'.Update now dt).2.HasImpacted = true) ∧
    (∀ b' : Bullet, b'.ty = BulletType.mortar →
      b'.IsActive = b'.HasImpacted ∧
      (b'.HasImpacted = true → b'.GetHitbox.Radius = b'.ImpactRadius)) := by
  have hstep : ∀ now dt, b.HasImpacted = false → now ≤ b.ImpactTime →
      ∃ k, b.Update now dt = (k, b) := by
    intro now dt himp hle
    simp only [Bullet.Update, hty]
    split
    · exact ⟨false, rfl⟩
    · refine ⟨true, ?_⟩
      rw [if_neg (by rintro ⟨hgt, -⟩; omega)]
  refine ⟨?_, ?_, ?_, ?_⟩
  · intro ts himp hts
    have hrun : (b.runUpdates ts).2 = b := by
      induction ts with
      | nil => rfl
      | cons p rest ih =>
        obtain ⟨k, hk⟩ := hstep p.1 p.2 himp (hts p (List.mem_cons_self p rest))
        simp only [Bullet.runUpdates, hk]
        exact ih (fun q hq => hts q (List.mem_cons_of_mem p hq))
    refine ⟨hrun, ?_⟩
    rw [hrun]
    simp [Bullet.IsActive, hty, himp]
  · intro now dt himp hgt hage
    simp only [Bullet.Update, hty]
    rw [if_neg (by omega)]
    rw [if_pos ⟨by omega, himp⟩]
    exact ⟨rfl, rfl⟩
  · intro b' hty' now dt himp'
    simp only [Bullet.Update, hty']
    split
    · exact himp'
    · rw [if_neg]
      · exact himp'
      · rintro ⟨-, hfalse⟩
        rw [himp'] at hfalse
        exact Bool.noConfusion hfalse
  · intro b' hty'
    constructor
    · simp [Bullet.IsActive, hty']
    · intro himp'
      simp [Bullet.GetHitbox, hty', himp']

/-- Concrete instance of the C5 theorem: the 10s mortar shell stays inactive
through updates at 11s and 13s (its impact time), and an update at 13s + 1ns
marks it impacted. -/
theorem C5_mortar_activation_witness :
    ((mortarBullet0.runUpdates [(11000000000, 1), (13000000000, 1)]).2 = mortarBullet0 ∧
     (mortarBullet0.runUpdates [(11000000000, 1), (13000000000, 1)]).2.IsActive = false) ∧
    ((mortarBullet0.Update 13000000001 1).1 = true ∧
     (mortarBullet0.Update 13000000001 1).2.HasImpacted = true) := by
  refine ⟨(C5_mortar_activation mortarBullet0 rfl).1 _ rfl ?_,
    (C5_mortar_activation mortarBullet0 rfl).2.1 13000000001 1 rfl (by decide) (by decide)⟩
  intro p hp
  simp only [List.mem_cons, List.not_mem_nil, or_false] at hp
  rcases hp with h | h <;> rw [h] <;> decide

/-- Claim C8 counterexample: two snapshots of the same game (one in-flight
mortar shell, no intervening tick) taken at clock times 11s and 12s differ,
because the broadcast flight progress is computed from the wall clock. -/
theorem C8_counterexample :
    Game.GetState gameWithMortar 11000000000 ≠ Game.GetState gameWithMortar 12000000000 := by
  intro h
  have hb : mortarBullet0.ToState 11000000000 = mortarBullet0.ToState 12000000000 := by
    have hb' := congrArg GameStateMessage.Bullets h
    simp only [Game.GetState, gameWithMortar, NewGame, List.map, List.cons.injEq, and_true] at hb'
    exact hb'
  have hfp := congrArg BulletState.FlightProgress hb
  simp only [Bullet.ToState] at hfp
  have h1 : mortarBullet0.GetFlightProgress 11000000000 = 1 / 3 := by
    simp only [Bullet.GetFlightProgress, mortarBullet0]
    norm_num
  have h2 : mortarBullet0.GetFlightProgress 12000000000 = 2 / 3 := by
    simp only [Bullet.GetFlightProgress, mortarBullet0]
    norm_num
  rw [h1, h2] at hfp
  norm_num at hfp

/-- Claim C8 (amended): `GetState` is a pure function of the game state and
the observation instant, so two snapshots with no intervening tick are
identical whenever no delayed-impact (mortar) projectile is live; a mortar
shell in flight makes its broadcast flight progress (hence the snapshot)
depend on the wall clock. -/
theorem C8_snapshot_idempotent (g : Game) (now1 now2 : ℤ)
    (h : ∀ b ∈ g.Bullets, b.ty ≠ BulletType.mortar) :
    g.GetState now1 = g.GetState now2 := by
  have hmap : ∀ l : List Bullet, (∀ b ∈ l, b.ty ≠ BulletType.mortar) →
      l.map (fun b => b.ToState now1) = l.map (fun b => b.ToState now2) := by
    intro l hl
    induction l with
    | nil => rfl
    | cons b rest ih =>
      simp only [List.map_cons, List.cons.injEq]
      refine ⟨?_, ih (fun q hq => hl q (List.mem_cons_of_mem b hq))⟩
      have hb := hl b (List.mem_cons_self b rest)
      simp [Bullet.ToState, Bullet.GetFlightProgress, hb]
  simp only [Game.GetState, hmap g.Bullets h]

/-- Concrete instance of the C8 theorem: snapshots of a fresh game at two
different instants coincide. -/
theorem C8_snapshot_idempotent_witness :
    Game.GetState NewGame 0 = Game.GetState NewGame 5 := by
  exact C8_snapshot_idempotent NewGame 0 5 (by simp [NewGame])

/-- Claim C3: a cannon fire at time `T` produces a projectile iff at least
the cooldown has elapsed since the cannon's last successful fire; a
successful fire resets the last-fired time to `T`; and two fire calls less
than the cooldown window apart, the first on a ready cannon, produce exactly
one projectile (the first succeeds, the second returns none). -/
theorem C3_cannon_cooldown (ops : RealOps) (c : Cannon) (now1 now2 : ℤ)
    (origin : Vector2) (angle : ℚ) (owner : String) (ctr : ℕ)
    (h1 : c.CanFire now1 = true) (h2 : now1 ≤ now2) (h3 : now2 - now1 < c.cooldown) :
    (∀ now : ℤ, (c.Fire ops now origin angle owner ctr).1.isSome = c.CanFire now) ∧
    (c.Fire ops now1 origin angle owner ctr).1.isSome = true ∧
    (c.Fire ops now1 origin angle owner ctr).2.1.lastFired = now1 ∧
    ((c.Fire ops now1 origin angle owner ctr).2.1.Fire ops now2 origin angle owner
      ((c.Fire ops now1 origin angle owner ctr).2.2)).1 = none := by
  have hfire : ∀ now : ℤ, (c.Fire ops now origin angle owner ctr).1.isSome = c.CanFire now := by
    intro now
    cases hc : c.CanFire now <;> simp [Cannon.Fire, hc]
  refine ⟨hfire, ?_, ?_, ?_⟩
  · rw [hfire now1, h1]
  · simp [Cannon.Fire, h1]
  · have hc1 : (c.Fire ops now1 origin angle owner ctr).2.1 =
        { lastFired := now1, cooldown := c.cooldown } := by
      simp [Cannon.Fire, h1]
    have hcant : ({ lastFired := now1, cooldown := c.cooldown } : Cannon).CanFire now2 = false := by
      simp only [Cannon.CanFire, decide_eq_false_iff_not, not_le]
      omega
    rw [hc1]
    simp [Cannon.Fire, hcant]

/-- Concrete instance of the C3 theorem: a fresh cannon fired at 1s produces
a projectile, and fired again at 1.1s (inside the 0.5s cooldown) produces
none. -/
theorem C3_cannon_cooldown_witness :
    (NewCannon.Fire zeroOps 1000000000 ⟨0, 0⟩ 0 "A" 0).1.isSome = true ∧
    ((NewCannon.Fire zeroOps 1000000000 ⟨0, 0⟩ 0 "A" 0).2.1.Fire zeroOps 1100000000 ⟨0, 0⟩ 0 "A"
      ((NewCannon.Fire zeroOps 1000000000 ⟨0, 0⟩ 0 "A" 0).2.2)).1 = none := by
  refine ⟨?_, ?_⟩
  · exact (C3_cannon_cooldown zeroOps NewCannon 1000000000 1100000000 ⟨0, 0⟩ 0 "A" 0
      (by decide) (by decide) (by decide)).2.1
  · exact (C3_cannon_cooldown zeroOps NewCannon 1000000000 1100000000 ⟨0, 0⟩ 0 "A" 0
      (by decide) (by decide) (by decide)).2.2.2

/-- Claim C4: over every sequence of fire and upkeep operations from a fresh
mortar, ammo stays within `[0, maxAmmo]`; a fire attempt that cannot fire
(in particular with 0 ammo) produces no projectile and leaves the mortar
unchanged; a successful fire takes exactly one charge immediately; and
upkeep changes ammo only by raising it by exactly one when a full recharge
interval has accumulated while ammo is below `maxAmmo` (resetting the
recharge progress). -/
theorem C4_mortar_ammo (ops : RealOps) (trace : List MortarOp) :
    (0 ≤ (runMortar ops NewMortar trace).ammo ∧
     (runMortar ops NewMortar trace).ammo ≤ (runMortar ops NewMortar trace).maxAmmo) ∧
    (∀ (m : Mortar) (now : ℤ) (origin : Vector2) (angle : ℚ) (owner : String) (ctr : ℕ),
      (m.CanFire now = false → m.Fire ops now origin angle owner ctr = (none, m, ctr)) ∧
      (m.ammo = 0 → m.Fire ops now origin angle owner ctr = (none, m, ctr)) ∧
      (m.CanFire now = true →
        (m.Fire ops now origin angle owner ctr).1.isSome = true ∧
        (m.Fire ops now origin angle owner ctr).2.1.ammo = m.ammo - 1 ∧
        (m.Fire ops now origin angle owner ctr).2.1.lastFired = now)) ∧
    (∀ (m : Mortar) (dt : ℚ),
      (m.Update dt).ammo = m.ammo ∨
      ((m.Update dt).ammo = m.ammo + 1 ∧ m.ammo < m.maxAmmo ∧
        m.rechargeTimer + goTrunc (dt * 1000000000) ≥ m.rechargeTime ∧
        (m.Update dt).rechargeTimer = 0)) := by
  have hfireNo : ∀ (m : Mortar) (now : ℤ) origin angle owner ctr, m.CanFire now = false →
      m.Fire ops now origin angle owner ctr = (none, m, ctr) := by
    intro m now origin angle owner ctr hc
    simp [Mortar.Fire, hc]
  have hinv : ∀ (tr : List MortarOp) (m : Mortar), 0 ≤ m.ammo → m.ammo ≤ m.maxAmmo →
      0 ≤ (runMortar ops m tr).ammo ∧ (runMortar ops m tr).ammo ≤ (runMortar ops m tr).maxAmmo := by
    intro tr
    induction tr with
    | nil => intro m h0 h1; exact ⟨h0, h1⟩
    | cons op rest ih =>
      intro m h0 h1
      cases op with
      | fire now =>
        simp only [runMortar, applyMortarOp]
        cases hc : m.CanFire now
        · rw [hfireNo m now _ _ _ _ hc]
          exact ih m h0 h1
        · have hammo : 0 < m.ammo := by
            have h := hc
            simp only [Mortar.CanFire, Bool.and_eq_true, decide_eq_true_eq] at h
            exact h.1
          have hm' : (m.Fire ops now ⟨0, 0⟩ 0 "" 0).2.1 =
              { m with lastFired := now, ammo := m.ammo - 1 } := by
            simp [Mortar.Fire, hc]
          rw [hm']
          exact ih _ (by show (0 : ℤ) ≤ m.ammo - 1; omega)
            (by show m.ammo - 1 ≤ m.maxAmmo; omega)
      | upd dt =>
        simp only [runMortar, applyMortarOp, Mortar.Update]
        split
        · split
          · exact ih _ (by show (0 : ℤ) ≤ m.ammo + 1; omega)
              (by show m.ammo + 1 ≤ m.maxAmmo; omega)
          · exact ih _ h0 h1
        · exact ih m h0 h1
  refine ⟨hinv trace NewMortar (by decide) (by decide), ?_, ?_⟩
  · intro m now origin angle owner ctr
    refine ⟨hfireNo m now origin angle owner ctr, ?_, ?_⟩
    · intro h0
      apply hfireNo
      simp [Mortar.CanFire, h0]
    · intro hc
      refine ⟨?_, ?_, ?_⟩ <;> simp [Mortar.Fire, hc]
  · intro m dt
    simp only [Mortar.Update]
    split
    · split
      · right
        refine ⟨rfl, by assumption, by assumption, rfl⟩
      · left
        rfl
    · left
      rfl

/-- Concrete instance of the C4 theorem: a fresh mortar fired at 5s and
upkept for one second holds 2 ≤ 3 charges, and a mortar with 0 charges fired
at 99s produces no projectile and is returned unchanged. -/
theorem C4_mortar_ammo_witness :
    (0 ≤ (runMortar zeroOps NewMortar [MortarOp.fire 5000000000, MortarOp.upd 1]).ammo ∧
     (runMortar zeroOps NewMortar [MortarOp.fire 5000000000, MortarOp.upd 1]).ammo ≤
       (runMortar zeroOps NewMortar [MortarOp.fire 5000000000, MortarOp.upd 1]).maxAmmo) ∧
    ({ NewMortar with ammo := 0 } : Mortar).Fire zeroOps 99000000000 ⟨0, 0⟩ 0 "A" 0 =
      (none, { NewMortar with ammo := 0 }, 0) := by
  refine ⟨(C4_mortar_ammo zeroOps [MortarOp.fire 5000000000, MortarOp.upd 1]).1, ?_⟩
  exact ((C4_mortar_ammo zeroOps []).2.1 { NewMortar with ammo := 0 } 99000000000
    ⟨0, 0⟩ 0 "A" 0).2.1 rfl

/-- Every character drawn by the lobby-code generator comes from its
alphabet. -/
theorem generateLobbyCode_chars (bytes : List ℕ) :
    ∀ ch ∈ (generateLobbyCode bytes).data, ch ∈ lobbyChars := by
  intro ch hch
  simp only [generateLobbyCode] at hch
  rw [List.mem_map] at hch
  obtain ⟨n, -, rfl⟩ := hch
  have hlen : n % lobbyChars.length < lobbyChars.length := Nat.mod_lt _ (by decide)
  have h1 : lobbyChars.getD (n % lobbyChars.length) 'A' =
      lobbyChars.get ⟨n % lobbyChars.length, hlen⟩ := by
    rw [List.getD_eq_getElem?_getD, List.getElem?_eq_getElem hlen]
    rfl
  rw [h1]
  exact List.get_mem _ _ _

/-- A successful draw of the code-generation loop is fresh and comes from the
generator. -/
theorem findFreshCode_spec (codes : List String) (stream : ℕ → List ℕ) :
    ∀ (fuel k : ℕ) (code : String), findFreshCode codes stream k fuel = some code →
      code ∉ codes ∧ ∃ i, code = generateLobbyCode (stream i) := by
  intro fuel
  induction fuel with
  | zero =>
    intro k code h
    simp [findFreshCode] at h
  | succ n ih =>
    intro k code h
    simp only [findFreshCode] at h
    split at h
    · exact ih (k + 1) code h
    · next hfresh =>
      cases h
      exact ⟨hfresh, k, rfl⟩

/-- Claim C9: at its cap of 5 lobbies the registry rejects a creation request
with the capacity error and mutates nothing; below the cap a successful
creation stores exactly one new lobby whose code is unique among the live
lobby codes, is drawn from the ambiguity-free alphabet (which indeed excludes
the visually confusable characters `0`, `O`, `1`, `I`), and has the fixed
code length. -/
theorem C9_create_lobby (lm : LobbyManager) (stream : ℕ → List ℕ) (fuel : ℕ) :
    (lm.lobbies.length ≥ MaxLobbies →
      lm.CreateLobby stream fuel =
        some (Except.error "maximum number of lobbies reached (5)", lm)) ∧
    (∀ (lobby : Lobby) (lm' : LobbyManager),
      lm.CreateLobby stream fuel = some (Except.ok lobby, lm') →
      lm.lobbies.length < MaxLobbies ∧
      lm'.lobbies = lm.lobbies ++ [(lobby.Code, lobby)] ∧
      lobby.Code ∉ lm.lobbies.map Prod.fst ∧
      (∀ ch ∈ lobby.Code.data, ch ∈ lobbyChars) ∧
      ((∀ k, (stream k).length = LobbyCodeLength) → lobby.Code.length = LobbyCodeLength)) ∧
    ('0' ∉ lobbyChars ∧ 'O' ∉ lobbyChars ∧ '1' ∉ lobbyChars ∧ 'I' ∉ lobbyChars) := by
  refine ⟨?_, ?_, by decide⟩
  · intro hcap
    simp [LobbyManager.CreateLobby, hcap]
  · intro lobby lm' h
    by_cases hcap : lm.lobbies.length ≥ MaxLobbies
    · have h1 := h
      simp only [LobbyManager.CreateLobby, if_pos hcap] at h1
      simp at h1
    · simp only [LobbyManager.CreateLobby, if_neg hcap] at h
      refine ⟨by omega, ?_⟩
      cases hf : findFreshCode (lm.lobbies.map Prod.fst) stream 0 fuel with
      | none => rw [hf] at h; exact absurd h (by simp)
      | some code =>
        rw [hf] at h
        obtain ⟨hfresh, i, hgen⟩ := findFreshCode_spec _ stream fuel 0 code hf
        have h2 : some ((Except.ok (NewLobby code) : Except String Lobby),
            (⟨lm.lobbies ++ [(code, NewLobby code)]⟩ : LobbyManager)) =
            some (Except.ok lobby, lm') := h
        have h3 := Option.some.inj h2
        have hok1 : Except.ok (NewLobby code) = (Except.ok lobby : Except String Lobby) :=
          congrArg Prod.fst h3
        have hok2 : (⟨lm.lobbies ++ [(code, NewLobby code)]⟩ : LobbyManager) = lm' :=
          congrArg Prod.snd h3
        have hlobby : lobby = NewLobby code := (Except.ok.inj hok1).symm
        subst hlobby
        refine ⟨hok2 ▸ rfl, hfresh, ?_, ?_⟩
        · intro ch hch
          rw [show (NewLobby code).Code = code from rfl, hgen] at hch
          exact generateLobbyCode_chars _ ch hch
        · intro hlen
          rw [show (NewLobby code).Code = code from rfl, hgen]
          show ((stream i).map _).length = LobbyCodeLength
          rw [List.length_map]
          exact hlen i

/-- Concrete instance of the C9 theorem: a registry with 5 lobbies rejects a
creation request unchanged, and an empty registry accepts one, storing the
lobby under the fresh code "ABCD" of length 4. -/
theorem C9_create_lobby_witness :
    ((⟨[("AAAA", ⟨"AAAA"⟩), ("BBBB", ⟨"BBBB"⟩), ("CCCC", ⟨"CCCC"⟩), ("DDDD", ⟨"DDDD"⟩),
        ("EEEE", ⟨"EEEE"⟩)]⟩ : LobbyManager).CreateLobby (fun _ => [0, 1, 2, 3]) 1 =
      some (Except.error "maximum number of lobbies reached (5)",
        ⟨[("AAAA", ⟨"AAAA"⟩), ("BBBB", ⟨"BBBB"⟩), ("CCCC", ⟨"CCCC"⟩), ("DDDD", ⟨"DDDD"⟩),
          ("EEEE", ⟨"EEEE"⟩)]⟩)) ∧
    ((⟨[]⟩ : LobbyManager).lobbies.length < MaxLobbies ∧
      (⟨[("ABCD", ⟨"ABCD"⟩)]⟩ : LobbyManager).lobbies = ([] : List (String × Lobby)) ++
        [((⟨"ABCD"⟩ : Lobby).Code, (⟨"ABCD"⟩ : Lobby))] ∧
      (⟨"ABCD"⟩ : Lobby).Code ∉ ([] : List (String × Lobby)).map Prod.fst ∧
      (∀ ch ∈ (⟨"ABCD"⟩ : Lobby).Code.data, ch ∈ lobbyChars) ∧
      ((∀ k : ℕ, ((fun _ => [0, 1, 2, 3]) k : List ℕ).length = LobbyCodeLength) →
        (⟨"ABCD"⟩ : Lobby).Code.length = LobbyCodeLength)) := by
  constructor
  · exact (C9_create_lobby _ (fun _ => [0, 1, 2, 3]) 1).1 (by decide)
  · exact (C9_create_lobby ⟨[]⟩ (fun _ => [0, 1, 2, 3]) 1).2.1 ⟨"ABCD"⟩ ⟨[("ABCD", ⟨"ABCD"⟩)]⟩
      (by simp +decide [LobbyManager.CreateLobby, findFreshCode, generateLobbyCode, lobbyChars,
        NewLobby, MaxLobbies])

/-- Claim C7 counterexample: after the trace join A, join B, leave A (which
ends the match with B the winner, B standing at the right spawn), a further
successful join C is assigned the right spawn point `(1100, 400)` — already
occupied by B — while the left spawn `(100, 400)` is unused, refuting "assigns
the next unused spawn point". -/
theorem C7_counterexample :
    ((runGame zeroOps NewGame [GOp.add "A", GOp.add "B", GOp.remove "A", GOp.add "C"]).Tanks.map
      (fun t => t.ID)) = ["B", "C"] ∧
    ((runGame zeroOps NewGame [GOp.add "A", GOp.add "B", GOp.remove "A", GOp.add "C"]).Tanks.map
      (fun t => t.Position)) = [⟨1100, 400⟩, ⟨1100, 400⟩] ∧
    NewGame.Map.GetSpawnPoints = [⟨100, 400⟩, ⟨1100, 400⟩] := by
  refine ⟨?_, ?_, ?_⟩ <;>
  · simp +decide [runGame, applyGOp, Game.AddPlayer, Game.RemovePlayer, NewGame, tanksInsert,
      NewTank, MapConfig.GetSpawnPoints, DefaultMap, StateWaiting, StatePlaying, StateGameOver,
      List.filter]
    try norm_num

/-- Claim C7 (amended): a join is rejected exactly when two players are
already present; a successful join of a fresh player id appends a tank at the
spawn point indexed by the current tank count (index 0 the left spawn, index
1 the right spawn — the next unused point only as long as no mid-match leave
has freed an earlier one); and the game enters Playing exactly when the join
makes the count two from the Waiting state (or it was already Playing). -/
theorem C7_join_spawn (g : Game) (pid : String) :
    (g.Tanks.length ≥ 2 → g.AddPlayer pid = (g, false)) ∧
    (g.Map.GetSpawnPoints = [⟨100, g.Map.Height / 2⟩, ⟨g.Map.Width - 100, g.Map.Height / 2⟩]) ∧
    (g.Tanks.length < 2 →
      (g.AddPlayer pid).2 = true ∧
      ((∀ t ∈ g.Tanks, t.ID ≠ pid) →
        (g.AddPlayer pid).1.Tanks =
          g.Tanks ++ [NewTank pid (g.Map.GetSpawnPoints.getD g.Tanks.length ⟨0, 0⟩)] ∧
        ((g.AddPlayer pid).1.State = StatePlaying ↔
          (g.Tanks.length = 1 ∧ g.State = StateWaiting) ∨ g.State = StatePlaying))) := by
  refine ⟨?_, rfl, ?_⟩
  · intro hcap
    simp [Game.AddPlayer, hcap]
  · intro hlt
    have hnot : ¬ g.Tanks.length ≥ 2 := by omega
    constructor
    · simp only [Game.AddPlayer, if_neg hnot]
      split <;> rfl
    · intro hfresh
      have hany : g.Tanks.any
          (fun u => u.ID = (NewTank pid (g.Map.GetSpawnPoints.getD g.Tanks.length ⟨0, 0⟩)).ID) =
          false := by
        rw [List.any_eq_false]
        intro t ht
        simpa using hfresh t ht
      have htanks : tanksInsert g.Tanks (NewTank pid (g.Map.GetSpawnPoints.getD g.Tanks.length ⟨0, 0⟩)) =
          g.Tanks ++ [NewTank pid (g.Map.GetSpawnPoints.getD g.Tanks.length ⟨0, 0⟩)] := by
        simp only [tanksInsert, hany, Bool.false_eq_true, if_false]
      constructor
      · simp only [Game.AddPlayer, if_neg hnot, htanks]
        split <;> rfl
      · simp only [Game.AddPlayer, if_neg hnot, htanks, List.length_append, List.length_cons,
          List.length_nil]
        split
        · next hcond =>
          simp only [show StatePlaying = StatePlaying from rfl, true_iff]
          left
          obtain ⟨h2, hw⟩ := hcond
          exact ⟨by omega, hw⟩
        · next hcond =>
          constructor
          · intro hst
            right
            exact hst
          · rintro (⟨h1, hw⟩ | hp)
            · exact absurd ⟨by omega, hw⟩ hcond
            · exact hp

/-- Concrete instance of the C7 theorem: the first join into a fresh game
succeeds, appends a tank at spawn index 0, and does not start the match. -/
theorem C7_join_spawn_witness :
    (NewGame.AddPlayer "A").2 = true ∧
    (NewGame.AddPlayer "A").1.Tanks =
      NewGame.Tanks ++ [NewTank "A" (NewGame.Map.GetSpawnPoints.getD NewGame.Tanks.length ⟨0, 0⟩)] ∧
    ((NewGame.AddPlayer "A").1.State = StatePlaying ↔
      (NewGame.Tanks.length = 1 ∧ NewGame.State = StateWaiting) ∨ NewGame.State = StatePlaying) := by
  have h := (C7_join_spawn NewGame "A").2.2 (by decide)
  exact ⟨h.1, (h.2 (by intro t ht; simp [NewGame] at ht)).1, (h.2 (by intro t ht; simp [NewGame] at ht)).2⟩

/-- A tank tick never touches health. -/
theorem tankUpdate_health (ops : RealOps) (t : Tank) (dt : ℚ) (bounds : Rectangle) :
    (t.Update ops dt bounds).Health = t.Health ∧
    (t.Update ops dt bounds).MaxHealth = t.MaxHealth := by
  simp only [Tank.Update]
  split <;> simp

/-- A tank tick keeps the position inside the map bounds: moving clamps the
position into the bounds inset by half the tank size, and not moving leaves
the position where it was. -/
theorem tankUpdate_contains (ops : RealOps) (t : Tank) (dt : ℚ) (bounds : Rectangle)
    (hW : TankSize ≤ bounds.Width) (hH : TankSize ≤ bounds.Height)
    (hpos : bounds.Contains t.Position = true) :
    bounds.Contains (t.Update ops dt bounds).Position = true := by
  have hts : (0 : ℚ) < TankSize := by norm_num [TankSize]
  simp only [Tank.Update]
  split
  · simp only [clampToBounds, Rectangle.Contains, Bool.and_eq_true, decide_eq_true_eq, ge_iff_le]
    refine ⟨⟨⟨?_, ?_⟩, ?_⟩, ?_⟩
    · exact le_trans (by linarith) (le_max_left _ _)
    · exact max_le (by linarith) (le_trans (min_le_right _ _) (by linarith))
    · exact le_trans (by linarith) (le_max_left _ _)
    · exact max_le (by linarith) (le_trans (min_le_right _ _) (by linarith))
  · exact hpos

/-- Claim C2: starting from a newly spawned tank inside the map, under every
sequence of updates, input changes and non-negative damage applications, the
tank's health stays within `[0, maxHealth]` and never increases, and its
position stays inside the map bounds after every update. -/
theorem C2_tank_invariants (ops : RealOps) (bounds : Rectangle) (id : String) (pos : Vector2)
    (trace : List TankOp)
    (hW : TankSize ≤ bounds.Width) (hH : TankSize ≤ bounds.Height)
    (hpos : bounds.Contains pos = true)
    (htr : ∀ op ∈ trace, dmgNonneg op) :
    (0 ≤ (runTank ops bounds (NewTank id pos) trace).Health ∧
     (runTank ops bounds (NewTank id pos) trace).Health ≤
       (runTank ops bounds (NewTank id pos) trace).MaxHealth) ∧
    bounds.Contains (runTank ops bounds (NewTank id pos) trace).Position = true ∧
    (∀ op, dmgNonneg op →
      (applyTankOp ops bounds (runTank ops bounds (NewTank id pos) trace) op).Health ≤
        (runTank ops bounds (NewTank id pos) trace).Health) := by
  have hstep : ∀ (t : Tank) (op : TankOp), dmgNonneg op →
      (0 ≤ t.Health ∧ t.Health ≤ t.MaxHealth ∧ bounds.Contains t.Position = true) →
      ((0 ≤ (applyTankOp ops bounds t op).Health ∧
        (applyTankOp ops bounds t op).Health ≤ (applyTankOp ops bounds t op).MaxHealth ∧
        bounds.Contains (applyTankOp ops bounds t op).Position = true) ∧
       (applyTankOp ops bounds t op).Health ≤ t.Health) := by
    intro t op hnn ⟨h0, h1, hc⟩
    cases op with
    | update dt =>
      obtain ⟨hh, hm⟩ := tankUpdate_health ops t dt bounds
      simp only [applyTankOp, hh, hm]
      exact ⟨⟨h0, h1, tankUpdate_contains ops t dt bounds hW hH hc⟩, le_refl _⟩
    | damage amount =>
      simp only [dmgNonneg] at hnn
      simp only [applyTankOp, Tank.TakeDamage]
      constructor
      · refine ⟨?_, ?_, hc⟩
        · split <;> omega
        · show (if t.Health - amount < 0 then 0 else t.Health - amount) ≤ t.MaxHealth
          split <;> omega
      · show (if t.Health - amount < 0 then 0 else t.Health - amount) ≤ t.Health
        split <;> omega
    | setInput inp =>
      exact ⟨⟨h0, h1, hc⟩, le_refl _⟩
  have hrun : ∀ (tr : List TankOp) (t : Tank), (∀ op ∈ tr, dmgNonneg op) →
      (0 ≤ t.Health ∧ t.Health ≤ t.MaxHealth ∧ bounds.Contains t.Position = true) →
      (0 ≤ (runTank ops bounds t tr).Health ∧
       (runTank ops bounds t tr).Health ≤ (runTank ops bounds t tr).MaxHealth ∧
       bounds.Contains (runTank ops bounds t tr).Position = true) := by
    intro tr
    induction tr with
    | nil => intro t _ hinv; exact hinv
    | cons op rest ih =>
      intro t htr' hinv
      exact ih _ (fun q hq => htr' q (List.mem_cons_of_mem op hq))
        (hstep t op (htr' op (List.mem_cons_self op rest)) hinv).1
  have hinit : 0 ≤ (NewTank id pos).Health ∧
      (NewTank id pos).Health ≤ (NewTank id pos).MaxHealth ∧
      bounds.Contains (NewTank id pos).Position = true := by
    refine ⟨by show (0 : ℤ) ≤ 100; norm_num, by show (100 : ℤ) ≤ 100; norm_num, hpos⟩
  obtain ⟨h0, h1, hc⟩ := hrun trace (NewTank id pos) htr hinit
  exact ⟨⟨h0, h1⟩, hc, fun op hnn =>
    (hstep (runTank ops bounds (NewTank id pos) trace) op hnn ⟨h0, h1, hc⟩).2⟩

/-- Concrete instance of the C2 theorem: a tank spawned at the left spawn,
driven right for a second and hit for 30, has health in `[0, 100]` and a
position inside the default map. -/
theorem C2_tank_invariants_witness :
    (0 ≤ (runTank zeroOps DefaultMap.GetBounds (NewTank "A" ⟨100, 400⟩)
        [TankOp.setInput ⟨false, false, false, true, 0, 0, false⟩, TankOp.update 1,
          TankOp.damage 30]).Health ∧
     (runTank zeroOps DefaultMap.GetBounds (NewTank "A" ⟨100, 400⟩)
        [TankOp.setInput ⟨false, false, false, true, 0, 0, false⟩, TankOp.update 1,
          TankOp.damage 30]).Health ≤
       (runTank zeroOps DefaultMap.GetBounds (NewTank "A" ⟨100, 400⟩)
        [TankOp.setInput ⟨false, false, false, true, 0, 0, false⟩, TankOp.update 1,
          TankOp.damage 30]).MaxHealth) ∧
    DefaultMap.GetBounds.Contains
      (runTank zeroOps DefaultMap.GetBounds (NewTank "A" ⟨100, 400⟩)
        [TankOp.setInput ⟨false, false, false, true, 0, 0, false⟩, TankOp.update 1,
          TankOp.damage 30]).Position = true := by
  have h := C2_tank_invariants zeroOps DefaultMap.GetBounds "A" ⟨100, 400⟩
    [TankOp.setInput ⟨false, false, false, true, 0, 0, false⟩, TankOp.update 1, TankOp.damage 30]
    (by norm_num [TankSize, DefaultMap, MapConfig.GetBounds])
    (by norm_num [TankSize, DefaultMap, MapConfig.GetBounds])
    (by simp only [Rectangle.Contains, DefaultMap, MapConfig.GetBounds, Bool.and_eq_true,
          decide_eq_true_eq]
        norm_num)
    (by intro op hop
        simp only [List.mem_cons, List.not_mem_nil, or_false] at hop
        rcases hop with h | h | h <;> subst h <;> simp [dmgNonneg])
  exact ⟨h.1, h.2.1⟩

/-- Damaging the tank at index `j` leaves every other position unchanged. -/
theorem damageAt_get?_ne (ts : List Tank) (j k : ℕ) (d : ℤ) (h : k ≠ j) :
    (damageAt ts j d).get? k = ts.get? k := by
  induction ts generalizing j k with
  | nil => cases j <;> rfl
  | cons t rest ih =>
    cases j with
    | zero =>
      cases k with
      | zero => exact absurd rfl h
      | succ k' => rfl
    | succ j' =>
      cases k with
      | zero => rfl
      | succ k' => exact ih j' k' (fun he => h (congrArg Nat.succ he))

/-- Damaging the tank at index `j` applies `TakeDamage` to exactly that
tank. -/
theorem damageAt_get?_eq (ts : List Tank) (j : ℕ) (d : ℤ) (v : Tank)
    (hv : ts.get? j = some v) :
    (damageAt ts j d).get? j = some (v.TakeDamage d) := by
  induction ts generalizing j with
  | nil => cases j <;> simp at hv
  | cons t rest ih =>
    cases j with
    | zero =>
      simp only [List.get?] at hv
      cases hv
      rfl
    | succ j' => exact ih j' hv

/-- The collision scan of an instant (cannon) bullet finds the first tank
that is not the bullet's owner and overlaps its hitbox. -/
theorem scanTanks_normal (ops : RealOps) (b : Bullet) (hb : Circle)
    (h : b.ty = BulletType.normal) :
    ∀ ts : List Tank, scanTanks ops b hb ts =
      ts.findIdx? (fun t => !(decide (b.OwnerID = t.ID)) && hb.Intersects ops t.GetHitbox) := by
  intro ts
  induction ts with
  | nil => rfl
  | cons t rest ih =>
    simp only [scanTanks, List.findIdx?_cons]
    by_cases hown : b.OwnerID = t.ID
    · rw [if_pos ⟨hown, h⟩]
      have hpt : (!decide (b.OwnerID = t.ID) && hb.Intersects ops t.GetHitbox) = false := by
        rw [decide_eq_true hown]
        rfl
      rw [hpt]
      simp only [Bool.false_eq_true, if_false]
      rw [ih, List.findIdx?_succ]
    · rw [if_neg (fun hc => hown hc.1)]
      cases hint : hb.Intersects ops t.GetHitbox
      · rw [Bool.and_false]
        simp only [Bool.false_eq_true, if_false]
        rw [ih, List.findIdx?_succ]
      · have hpt : (!decide (b.OwnerID = t.ID) && true) = true := by
          rw [Bool.and_true, decide_eq_false hown]
          rfl
        rw [hpt]
        simp only [if_true]

/-- The collision scan of an impacted delayed-impact (mortar) bullet finds
the first tank that overlaps its hitbox — the owner included. -/
theorem scanTanks_mortar (ops : RealOps) (b : Bullet) (hb : Circle)
    (h : b.ty = BulletType.mortar) :
    ∀ ts : List Tank, scanTanks ops b hb ts =
      ts.findIdx? (fun t => hb.Intersects ops t.GetHitbox) := by
  intro ts
  induction ts with
  | nil => rfl
  | cons t rest ih =>
    simp only [scanTanks, List.findIdx?_cons]
    rw [if_neg (fun hc => by rw [h] at hc; exact BulletType.noConfusion hc.2)]
    cases hint : hb.Intersects ops t.GetHitbox
    · simp only [Bool.false_eq_true, if_false]
      rw [ih, List.findIdx?_succ]
    · simp only [if_true]

/-- A successful collision scan returns an index whose tank was not skipped
by the self-hit exemption and overlaps the bullet's hitbox. -/
theorem scanTanks_some_spec (ops : RealOps) (b : Bullet) (hb : Circle) :
    ∀ (ts : List Tank) (j : ℕ), scanTanks ops b hb ts = some j →
      ∀ v, ts.get? j = some v →
        ¬(b.OwnerID = v.ID ∧ b.ty = BulletType.normal) ∧
        hb.Intersects ops v.GetHitbox = true := by
  intro ts
  induction ts with
  | nil =>
    intro j h
    simp [scanTanks] at h
  | cons t rest ih =>
    intro j h v hv
    simp only [scanTanks] at h
    split at h
    · cases hs : scanTanks ops b hb rest with
      | none => rw [hs] at h; simp at h
      | some j' =>
        rw [hs] at h
        simp only [Option.map_some'] at h
        cases h
        exact ih j' hs v hv
    · next hskip =>
      split at h
      · next hint =>
        cases h
        simp only [List.get?] at hv
        cases hv
        exact ⟨hskip, hint⟩
      · next hint =>
        cases hs : scanTanks ops b hb rest with
        | none => rw [hs] at h; simp at h
        | some j' =>
          rw [hs] at h
          simp only [Option.map_some'] at h
          cases h
          exact ih j' hs v hv

/-- Resolution of a single bullet: an inactive or missing scan keeps the
bullet and the tanks; a hit consumes the bullet and damages exactly the
scanned tank. -/
theorem collideBullets_single (ops : RealOps) (b : Bullet) (ts : List Tank)
    (st : GameState) (w : String) (hAct : b.IsActive = true) :
    (scanTanks ops b b.GetHitbox ts = none →
      collideBullets ops [b] ts st w = ([b], ts, st, w)) ∧
    (∀ j, scanTanks ops b b.GetHitbox ts = some j →
      (collideBullets ops [b] ts st w).1 = [] ∧
      (collideBullets ops [b] ts st w).2.1 = damageAt ts j b.Damage) := by
  constructor
  · intro hscan
    simp only [collideBullets, hAct, if_true, hscan]
  · intro j hscan
    constructor <;> simp [collideBullets, hAct, hscan]

/-- Claim C6: in collision resolution with a single live bullet, an instant
(cannon) bullet never damages its owner (the scan skips exactly the owner's
tank; an owner-id tank's entry is left unchanged), while an impacted mortar
bullet is tested against every tank including its owner; the first scanned
hit applies the bullet's damage once to that tank alone, consumes the bullet,
and no other tank is affected. -/
theorem C6_collision_resolution (ops : RealOps) (g : Game) (b : Bullet)
    (hB : g.Bullets = [b]) (hAct : b.IsActive = true) :
    (b.ty = BulletType.normal →
      scanTanks ops b b.GetHitbox g.Tanks =
        g.Tanks.findIdx?
          (fun t => !(decide (b.OwnerID = t.ID)) && b.GetHitbox.Intersects ops t.GetHitbox)) ∧
    (b.ty = BulletType.mortar →
      scanTanks ops b b.GetHitbox g.Tanks =
        g.Tanks.findIdx? (fun t => b.GetHitbox.Intersects ops t.GetHitbox)) ∧
    (scanTanks ops b b.GetHitbox g.Tanks = none → Game.checkCollisions ops g = g) ∧
    (∀ j, scanTanks ops b b.GetHitbox g.Tanks = some j →
      (Game.checkCollisions ops g).Bullets = [] ∧
      (Game.checkCollisions ops g).Tanks = damageAt g.Tanks j b.Damage ∧
      (∀ k, k ≠ j →
        (Game.checkCollisions ops g).Tanks.get? k = g.Tanks.get? k) ∧
      (∀ v, g.Tanks.get? j = some v →
        (Game.checkCollisions ops g).Tanks.get? j = some (v.TakeDamage b.Damage))) ∧
    (b.ty = BulletType.normal → ∀ j v, g.Tanks.get? j = some v → v.ID = b.OwnerID →
      (Game.checkCollisions ops g).Tanks.get? j = some v) := by
  obtain ⟨hnone, hsome⟩ := collideBullets_single ops b g.Tanks g.State g.WinnerID hAct
  have hg : ∀ (r : List Bullet × List Tank × GameState × String),
      collideBullets ops [b] g.Tanks g.State g.WinnerID = r →
      Game.checkCollisions ops g =
        { g with Bullets := r.1, Tanks := r.2.1, State := r.2.2.1, WinnerID := r.2.2.2 } := by
    intro r hr
    simp only [Game.checkCollisions, hB, hr]
  refine ⟨fun h => scanTanks_normal ops b b.GetHitbox h g.Tanks,
    fun h => scanTanks_mortar ops b b.GetHitbox h g.Tanks, ?_, ?_, ?_⟩
  · intro hscan
    have h1 := hg ([b], g.Tanks, g.State, g.WinnerID) (hnone hscan)
    rw [h1, ← hB]
  · intro j hscan
    have hr := hsome j hscan
    have h1 := hg (collideBullets ops [b] g.Tanks g.State g.WinnerID) rfl
    rw [h1]
    refine ⟨hr.1, hr.2, fun k hk => ?_, fun v hv => ?_⟩
    · show (collideBullets ops [b] g.Tanks g.State g.WinnerID).2.1.get? k = g.Tanks.get? k
      rw [hr.2]
      exact damageAt_get?_ne g.Tanks j k b.Damage hk
    · show (collideBullets ops [b] g.Tanks g.State g.WinnerID).2.1.get? j =
        some (v.TakeDamage b.Damage)
      rw [hr.2]
      exact damageAt_get?_eq g.Tanks j b.Damage v hv
  · intro hn j v hv hvid
    cases hscan : scanTanks ops b b.GetHitbox g.Tanks with
    | none =>
      have h1 := hg ([b], g.Tanks, g.State, g.WinnerID) (hnone hscan)
      rw [h1, ← hB]
      exact hv
    | some j' =>
      have hr := hsome j' hscan
      have h1 := hg (collideBullets ops [b] g.Tanks g.State g.WinnerID) rfl
      have hne : j ≠ j' := by
        intro he
        subst he
        obtain ⟨hnskip, -⟩ := scanTanks_some_spec ops b b.GetHitbox g.Tanks j hscan v hv
        exact hnskip ⟨hvid.symm, hn⟩
      rw [h1]
      show (collideBullets ops [b] g.Tanks g.State g.WinnerID).2.1.get? j = some v
      rw [hr.2, damageAt_get?_ne g.Tanks j' j b.Damage hne]
      exact hv

/-- A tank for player "A" at the left spawn. -/
def tankA0 : Tank := NewTank "A" ⟨100, 400⟩

/-- A tank for player "B" at the right spawn. -/
def tankB0 : Tank := NewTank "B" ⟨1100, 400⟩

/-- An instant (cannon) bullet owned by "A", sitting on top of tank "A". -/
def cannonBullet0 : Bullet :=
  { ID := "B1"
    OwnerID := "A"
    Position := ⟨104, 400⟩
    Velocity := ⟨600, 0⟩
    ty := BulletType.normal
    Damage := 100
    CreatedAt := 1000000000
    MaxAge := 3000000000
    ImpactPos := ⟨0, 0⟩
    ImpactTime := 0
    ImpactRadius := 0
    HasImpacted := false }

/-- The 10s mortar shell of "A", impacted on top of tank "A". -/
def mortarImpacted0 : Bullet :=
  { mortarBullet0 with Position := ⟨104, 400⟩, HasImpacted := true }

/-- A running match where "A"'s cannon bullet overlaps only "A". -/
def gameCannonSelf : Game :=
  { NewGame with State := StatePlaying, Tanks := [tankA0, tankB0], Bullets := [cannonBullet0] }

/-- A running match where "A"'s impacted mortar shell overlaps "A". -/
def gameMortarSelf : Game :=
  { NewGame with State := StatePlaying, Tanks := [tankA0, tankB0], Bullets := [mortarImpacted0] }

/-- Concrete instance of the C6 theorem (spec scenario D and the mortar
self-hit): a cannon bullet overlapping only its firing tank damages nothing
and the game is unchanged, while the owner's impacted mortar shell consumes
itself and damages the owner. -/
theorem C6_collision_resolution_witness :
    Game.checkCollisions idOps gameCannonSelf = gameCannonSelf ∧
    (Game.checkCollisions idOps gameMortarSelf).Bullets = [] ∧
    (Game.checkCollisions idOps gameMortarSelf).Tanks.get? 0 = some (tankA0.TakeDamage 100) := by
  have hscanA : scanTanks idOps cannonBullet0 cannonBullet0.GetHitbox gameCannonSelf.Tanks =
      none := by
    norm_num [scanTanks, gameCannonSelf, cannonBullet0, tankA0, tankB0, NewTank, NewGame,
      Bullet.GetHitbox, Tank.GetHitbox, Circle.Intersects, Vector2.Distance, Vector2.Length,
      Vector2.Sub, idOps, TankSize]
  have hscanB : scanTanks idOps mortarImpacted0 mortarImpacted0.GetHitbox gameMortarSelf.Tanks =
      some 0 := by
    norm_num [scanTanks, gameMortarSelf, mortarImpacted0, mortarBullet0, tankA0, tankB0, NewTank,
      NewGame, Bullet.GetHitbox, Tank.GetHitbox, Circle.Intersects, Vector2.Distance,
      Vector2.Length, Vector2.Sub, idOps, TankSize]
    intro hc
    exact BulletType.noConfusion hc
  refine ⟨(C6_collision_resolution idOps gameCannonSelf cannonBullet0 rfl rfl).2.2.1 hscanA,
    ((C6_collision_resolution idOps gameMortarSelf mortarImpacted0 rfl rfl).2.2.2.1 0 hscanB).1,
    ((C6_collision_resolution idOps gameMortarSelf mortarImpacted0 rfl rfl).2.2.2.1 0
      hscanB).2.2.2 tankA0 rfl⟩

/-- A tick update keeps a tank's id. -/
theorem tankUpdate_ID (ops : RealOps) (t : Tank) (dt : ℚ) (bounds : Rectangle) :
    (t.Update ops dt bounds).ID = t.ID := by
  simp only [Tank.Update]
  split <;> rfl

/-- Firing keeps a tank's id. -/
theorem tankFire_ID (ops : RealOps) (t : Tank) (now : ℤ) (ctr : ℕ) :
    (t.Fire ops now ctr).2.1.ID = t.ID := by
  cases h : t.ActiveWeapon <;> simp only [Tank.Fire, h]

/-- A tick update keeps a tank's input state. -/
theorem tankUpdate_Input (ops : RealOps) (t : Tank) (dt : ℚ) (bounds : Rectangle) :
    (t.Update ops dt bounds).Input = t.Input := by
  simp only [Tank.Update]
  split <;> rfl

/-- Replacing a tank by one carrying the same id keeps the id list. -/
theorem tanksReplace_ids (ts : List Tank) (pid : String) (t : Tank) (h : t.ID = pid) :
    (tanksReplace ts pid t).map Tank.ID = ts.map Tank.ID := by
  simp only [tanksReplace, List.map_map]
  refine List.map_congr_left (fun u _ => ?_)
  by_cases hu : u.ID = pid
  · simp [hu, h]
  · simp [hu]

/-- Map-insertion: replacement keeps the id list, append extends it. -/
theorem tanksInsert_ids (ts : List Tank) (t : Tank) :
    (tanksInsert ts t).map Tank.ID =
      if ts.any (fun u => u.ID = t.ID) then ts.map Tank.ID else ts.map Tank.ID ++ [t.ID] := by
  simp only [tanksInsert]
  split
  · simp only [List.map_map]
    refine List.map_congr_left (fun u _ => ?_)
    by_cases hu : u.ID = t.ID
    · simp [hu]
    · simp [hu]
  · simp

/-- Map-insertion length: unchanged on replacement, one more on append. -/
theorem tanksInsert_length (ts : List Tank) (t : Tank) :
    (tanksInsert ts t).length =
      if ts.any (fun u => u.ID = t.ID) then ts.length else ts.length + 1 := by
  have h := congrArg List.length (tanksInsert_ids ts t)
  simp only [List.length_map] at h
  rw [h]
  split <;> simp

/-- Map-insertion keeps the ids without duplicates. -/
theorem tanksInsert_nodup (ts : List Tank) (t : Tank)
    (h : (ts.map Tank.ID).Nodup) : ((tanksInsert ts t).map Tank.ID).Nodup := by
  rw [tanksInsert_ids]
  split
  · exact h
  · next hany =>
    have hani : ∀ u ∈ ts, ¬(u.ID = t.ID) := by
      intro u hu hc
      exact hany (List.any_eq_true.mpr ⟨u, hu, by simpa using hc⟩)
    refine List.Nodup.append h (List.nodup_singleton _) ?_
    intro x hx hx'
    rw [List.mem_singleton] at hx'
    subst hx'
    rw [List.mem_map] at hx
    obtain ⟨u, hu, hid⟩ := hx
    exact hani u hu hid

/-- Removing a player keeps the ids without duplicates. -/
theorem filter_ne_nodup (ts : List Tank) (pid : String)
    (h : (ts.map Tank.ID).Nodup) :
    ((ts.filter (fun t => t.ID ≠ pid)).map Tank.ID).Nodup :=
  List.Nodup.sublist (List.Sublist.map _ (List.filter_sublist ts)) h

/-- With duplicate-free ids, removing a player drops at most one tank. -/
theorem filter_ne_length_ge (ts : List Tank) (pid : String)
    (h : (ts.map Tank.ID).Nodup) :
    ts.length ≤ (ts.filter (fun t => t.ID ≠ pid)).length + 1 := by
  induction ts with
  | nil => simp
  | cons t rest ih =>
    simp only [List.map_cons, List.nodup_cons] at h
    obtain ⟨hni, hnd⟩ := h
    by_cases ht : t.ID = pid
    · have hall : rest.filter (fun u => u.ID ≠ pid) = rest := by
        rw [List.filter_eq_self]
        intro u hu
        simp only [ne_eq, decide_eq_true_eq]
        intro hc
        apply hni
        rw [ht, ← hc]
        exact List.mem_map_of_mem Tank.ID hu
      have hcond : (decide (t.ID ≠ pid)) = false := by simp [ht]
      simp only [List.filter_cons, hcond, Bool.false_eq_true, if_false, hall]
      simp
    · have hcond : (decide (t.ID ≠ pid)) = true := by simp [ht]
      simp only [List.filter_cons, hcond, if_true, List.length_cons]
      have := ih hnd
      omega

/-- Damaging one tank keeps the id list. -/
theorem damageAt_ids (ts : List Tank) (j : ℕ) (d : ℤ) :
    (damageAt ts j d).map Tank.ID = ts.map Tank.ID := by
  induction ts generalizing j with
  | nil => cases j <;> rfl
  | cons t rest ih =>
    cases j with
    | zero => rfl
    | succ j' =>
      simp only [damageAt, List.map_cons]
      rw [ih j']

/-- Collision resolution keeps the tank id list, and only ever moves the
state to `StateGameOver`. -/
theorem collideBullets_tanks_state (ops : RealOps) :
    ∀ (bs : List Bullet) (ts : List Tank) (st : GameState) (w : String),
      ((collideBullets ops bs ts st w).2.1).map Tank.ID = ts.map Tank.ID ∧
      ((collideBullets ops bs ts st w).2.2.1 = st ∨
        (collideBullets ops bs ts st w).2.2.1 = StateGameOver) := by
  have hgofst : ∀ (ts' : List Tank) (j : ℕ) (st : GameState) (w : String),
      (gameOverUpdate ts' j st w).1 = st ∨ (gameOverUpdate ts' j st w).1 = StateGameOver := by
    intro ts' j st w
    cases hv : ts'.get? j with
    | none =>
      left
      simp only [gameOverUpdate, hv]
    | some victim =>
      by_cases ha : victim.IsAlive = true
      · left
        simp only [gameOverUpdate, hv, ha, if_true]
      · right
        simp only [gameOverUpdate, hv]
        rw [if_neg ha]
  intro bs
  induction bs with
  | nil => intro ts st w; exact ⟨rfl, Or.inl rfl⟩
  | cons b rest ih =>
    intro ts st w
    simp only [collideBullets]
    split
    · cases hscan : scanTanks ops b b.GetHitbox ts with
      | none =>
        simpa using ih ts st w
      | some j =>
        obtain ⟨h1, h2⟩ := ih (damageAt ts j b.Damage)
          (gameOverUpdate (damageAt ts j b.Damage) j st w).1
          (gameOverUpdate (damageAt ts j b.Damage) j st w).2
        refine ⟨by rw [h1, damageAt_ids], ?_⟩
        rcases h2 with h2 | h2
        · rw [h2]
          exact hgofst (damageAt ts j b.Damage) j st w
        · exact Or.inr h2
    · simpa using ih ts st w

/-- The per-tick tank loop keeps the tank id list. -/
theorem updateTanksLoop_ids (ops : RealOps) (now : ℤ) (dt : ℚ) (bounds : Rectangle) :
    ∀ (ts : List Tank) (bs : List Bullet) (ctr : ℕ),
      ((updateTanksLoop ops now dt bounds ts bs ctr).1).map Tank.ID = ts.map Tank.ID := by
  intro ts
  induction ts with
  | nil => intro bs ctr; rfl
  | cons t rest ih =>
    intro bs ctr
    simp only [updateTanksLoop, List.map_cons, List.cons.injEq]
    refine ⟨?_, ih _ _⟩
    split
    · cases hf : ((t.Update ops dt bounds).Fire ops now ctr).1 with
      | some b =>
        simp only [hf]
        rw [tankFire_ID, tankUpdate_ID]
      | none =>
        simp only [hf]
        rw [tankFire_ID, tankUpdate_ID]
    · exact tankUpdate_ID ops t dt bounds

/-- Input processing changes neither the game state nor the tank id list. -/
theorem processInput_State_ids (ops : RealOps) (g : Game) (inp : PlayerInput) (now : ℤ) :
    (Game.processInput ops g inp now).State = g.State ∧
    (Game.processInput ops g inp now).Tanks.map Tank.ID = g.Tanks.map Tank.ID := by
  cases hf : findTank g.Tanks inp.PlayerID with
  | none =>
    simp only [Game.processInput, hf]
    exact ⟨by trivial, by trivial⟩
  | some tank =>
    have hid : tank.ID = inp.PlayerID := by
      have h := List.find?_some hf
      simpa using h
    simp only [Game.processInput, hf]
    split
    · exact ⟨by trivial, tanksReplace_ids _ _ _ hid⟩
    · split
      · cases hr : (tank.Fire ops now g.idCounter).1 with
        | some b =>
          simp only [hr]
          exact ⟨by trivial, tanksReplace_ids _ _ _ (by rw [tankFire_ID]; exact hid)⟩
        | none =>
          simp only [hr]
          exact ⟨by trivial, tanksReplace_ids _ _ _ (by rw [tankFire_ID]; exact hid)⟩
      · split
        · exact ⟨by trivial, tanksReplace_ids _ _ _ hid⟩
        · exact ⟨by trivial, by trivial⟩

/-- A tick keeps the tank id list, and can move the state only to
`StateGameOver` (never backwards). -/
theorem update_State_ids (ops : RealOps) (g : Game) (now : ℤ) (dt : ℚ) :
    ((Game.update ops g now dt).State = g.State ∨
     (Game.update ops g now dt).State = StateGameOver) ∧
    (Game.update ops g now dt).Tanks.map Tank.ID = g.Tanks.map Tank.ID := by
  simp only [Game.update]
  split
  · exact ⟨Or.inl rfl, rfl⟩
  · obtain ⟨hids, hst⟩ := collideBullets_tanks_state ops
      (updateBulletsLoop now dt g.Map.GetBounds
        (updateTanksLoop ops now dt g.Map.GetBounds g.Tanks g.Bullets g.idCounter).2.1)
      (updateTanksLoop ops now dt g.Map.GetBounds g.Tanks g.Bullets g.idCounter).1
      g.State g.WinnerID
    refine ⟨hst, ?_⟩
    rw [show ∀ h : Game, (Game.checkCollisions ops h).Tanks =
        (collideBullets ops h.Bullets h.Tanks h.State h.WinnerID).2.1 from fun h => rfl]
    rw [hids]
    exact updateTanksLoop_ids ops now dt g.Map.GetBounds g.Tanks g.Bullets g.idCounter

/-- Once the state is GameOver, no operation leaves it. -/
theorem gameover_absorbing (ops : RealOps) (g : Game) (op : GOp)
    (h : g.State = StateGameOver) : (applyGOp ops g op).State = StateGameOver := by
  cases op with
  | add pid =>
    simp only [applyGOp, Game.AddPlayer]
    split
    · exact h
    · split
      · next hc =>
        rw [h] at hc
        exact GameState.noConfusion hc.2
      · exact h
  | remove pid =>
    simp only [applyGOp, Game.RemovePlayer]
    split
    · next hc =>
      rw [h] at hc
      exact GameState.noConfusion hc.1
    · exact h
  | input inp now => exact (processInput_State_ids ops g inp now).1.trans h
  | tick now dt =>
    simp only [applyGOp, Game.update]
    rw [if_pos]
    · exact h
    · rw [h]
      exact fun hc => GameState.noConfusion hc

/-- The C1 invariant: at most two tanks, fewer than two while Waiting,
exactly two while Playing, and duplicate-free player ids. -/
def C1Inv (g : Game) : Prop :=
  g.Tanks.length ≤ 2 ∧
  (g.State = StateWaiting → g.Tanks.length < 2) ∧
  (g.State = StatePlaying → g.Tanks.length = 2) ∧
  (g.Tanks.map Tank.ID).Nodup

/-- Every operation preserves the C1 invariant. -/
theorem C1Inv_step (ops : RealOps) (g : Game) (op : GOp) (h : C1Inv g) :
    C1Inv (applyGOp ops g op) := by
  obtain ⟨hlen, hw, hp, hnd⟩ := h
  cases op with
  | add pid =>
    simp only [applyGOp, Game.AddPlayer]
    split
    · exact ⟨hlen, hw, hp, hnd⟩
    · next hcap =>
      have hlt : g.Tanks.length < 2 := by omega
      have hlen' := tanksInsert_length g.Tanks
        (NewTank pid (g.Map.GetSpawnPoints.getD g.Tanks.length ⟨0, 0⟩))
      have hnd' := tanksInsert_nodup g.Tanks
        (NewTank pid (g.Map.GetSpawnPoints.getD g.Tanks.length ⟨0, 0⟩)) hnd
      split
      · next hcond =>
        refine ⟨?_, ?_, ?_, hnd'⟩
        · rw [hlen']
          split <;> omega
        · intro hws
          exact GameState.noConfusion hws
        · intro _
          exact hcond.1
      · next hcond =>
        refine ⟨?_, ?_, ?_, hnd'⟩
        · rw [hlen']
          split <;> omega
        · intro hws
          have hne : (tanksInsert g.Tanks
              (NewTank pid (g.Map.GetSpawnPoints.getD g.Tanks.length ⟨0, 0⟩))).length ≠ 2 :=
            fun hc => hcond ⟨hc, hws⟩
          rw [hlen'] at hne ⊢
          by_cases hany : g.Tanks.any
              (fun u => u.ID = (NewTank pid (g.Map.GetSpawnPoints.getD g.Tanks.length ⟨0, 0⟩)).ID)
          · rw [if_pos hany] at hne ⊢
            omega
          · rw [if_neg hany] at hne ⊢
            omega
        · intro hps
          exact absurd (hp hps) (by omega)
  | remove pid =>
    simp only [applyGOp, Game.RemovePlayer]
    have hsub : (g.Tanks.filter (fun t => t.ID ≠ pid)).length ≤ g.Tanks.length :=
      List.length_filter_le _ _
    have hge := filter_ne_length_ge g.Tanks pid hnd
    have hnd2 := filter_ne_nodup g.Tanks pid hnd
    split
    · next hcond =>
      cases htf : g.Tanks.filter (fun t => t.ID ≠ pid) with
      | nil =>
        rw [htf] at hcond
        simp at hcond
      | cons t rest =>
        refine ⟨?_, ?_, ?_, ?_⟩
        · show (t :: rest).length ≤ 2
          rw [← htf]
          omega
        · intro hws
          exact GameState.noConfusion hws
        · intro hps
          exact GameState.noConfusion hps
        · show ((t :: rest).map Tank.ID).Nodup
          rw [← htf]
          exact hnd2
    · next hcond =>
      refine ⟨?_, ?_, ?_, hnd2⟩
      · show (g.Tanks.filter (fun t => t.ID ≠ pid)).length ≤ 2
        omega
      · intro hws
        have := hw hws
        show (g.Tanks.filter (fun t => t.ID ≠ pid)).length < 2
        omega
      · intro hps
        have h2 := hp hps
        have hne : (g.Tanks.filter (fun t => t.ID ≠ pid)).length ≠ 1 :=
          fun hc => hcond ⟨hps, hc⟩
        show (g.Tanks.filter (fun t => t.ID ≠ pid)).length = 2
        omega
  | input inp now =>
    obtain ⟨hst, hids⟩ := processInput_State_ids ops g inp now
    have hlen2 : (Game.processInput ops g inp now).Tanks.length = g.Tanks.length := by
      have h := congrArg List.length hids
      simpa using h
    simp only [applyGOp]
    refine ⟨by omega, ?_, ?_, by rw [hids]; exact hnd⟩
    · intro hws
      rw [hst] at hws
      rw [hlen2]
      exact hw hws
    · intro hps
      rw [hst] at hps
      rw [hlen2]
      exact hp hps
  | tick now dt =>
    obtain ⟨hst, hids⟩ := update_State_ids ops g now dt
    have hlen2 : (Game.update ops g now dt).Tanks.length = g.Tanks.length := by
      have h := congrArg List.length hids
      simpa using h
    simp only [applyGOp]
    refine ⟨by omega, ?_, ?_, by rw [hids]; exact hnd⟩
    · intro hws
      rcases hst with hst | hst
      · rw [hst] at hws
        rw [hlen2]
        exact hw hws
      · rw [hws] at hst
        exact GameState.noConfusion hst
    · intro hps
      rcases hst with hst | hst
      · rw [hst] at hps
        rw [hlen2]
        exact hp hps
      · rw [hps] at hst
        exact GameState.noConfusion hst

/-- The C1 invariant holds in every reachable game. -/
theorem C1Inv_run (ops : RealOps) (trace : List GOp) :
    C1Inv (runGame ops NewGame trace) := by
  have hrun : ∀ (tr : List GOp) (g : Game), C1Inv g → C1Inv (runGame ops g tr) := by
    intro tr
    induction tr with
    | nil => intro g hg; exact hg
    | cons op rest ih => intro g hg; exact ih _ (C1Inv_step ops g op hg)
  refine hrun trace NewGame ⟨by simp [NewGame], by simp [NewGame], ?_, by simp [NewGame]⟩
  intro hps
  exact GameState.noConfusion hps

/-- Claim C1 counterexample: after join A, join B, leave A the match holds
one tank while the state is GameOver, not Waiting — refuting "state is
Waiting iff the tank count is below 2". -/
theorem C1_counterexample :
    (runGame zeroOps NewGame [GOp.add "A", GOp.add "B", GOp.remove "A"]).Tanks.length < 2 ∧
    (runGame zeroOps NewGame [GOp.add "A", GOp.add "B", GOp.remove "A"]).State ≠ StateWaiting ∧
    (runGame zeroOps NewGame [GOp.add "A", GOp.add "B", GOp.remove "A"]).State =
      StateGameOver := by
  refine ⟨?_, ?_, ?_⟩ <;>
  · simp +decide [runGame, applyGOp, Game.AddPlayer, Game.RemovePlayer, NewGame, tanksInsert,
      NewTank, MapConfig.GetSpawnPoints, DefaultMap, StateWaiting, StatePlaying, StateGameOver,
      List.filter]

/-- Claim C1 (amended): over every operation sequence from a fresh game, the
match holds at most 2 tanks; while no game-over has triggered, the state is
Waiting iff the tank count is below 2 and Playing iff the count is exactly 2;
and once GameOver is entered no operation leaves it (so transitions run
strictly Waiting→Playing→GameOver). After a mid-match leave the state is
GameOver with one tank, so the Waiting↔count<2 equivalence holds only before
a game-over trigger. -/
theorem C1_match_state_machine (ops : RealOps) (trace : List GOp) :
    (runGame ops NewGame trace).Tanks.length ≤ 2 ∧
    ((runGame ops NewGame trace).State ≠ StateGameOver →
      (((runGame ops NewGame trace).State = StateWaiting ↔
        (runGame ops NewGame trace).Tanks.length < 2) ∧
       ((runGame ops NewGame trace).State = StatePlaying ↔
        (runGame ops NewGame trace).Tanks.length = 2))) ∧
    (∀ op : GOp, (runGame ops NewGame trace).State = StateGameOver →
      (applyGOp ops (runGame ops NewGame trace) op).State = StateGameOver) := by
  obtain ⟨hlen, hw, hp, hnd⟩ := C1Inv_run ops trace
  refine ⟨hlen, ?_, fun op h => gameover_absorbing ops _ op h⟩
  intro hngo
  constructor
  · constructor
    · exact hw
    · intro hlt
      cases hstate : (runGame ops NewGame trace).State with
      | waiting => rfl
      | playing =>
        have h2 := hp hstate
        omega
      | gameover => exact absurd hstate hngo
  · constructor
    · exact hp
    · intro h2
      cases hstate : (runGame ops NewGame trace).State with
      | waiting =>
        have := hw hstate
        omega
      | playing => rfl
      | gameover => exact absurd hstate hngo

/-- Concrete instance of the C1 theorem: after one join the game is Waiting
with one tank, and both equivalences hold. -/
theorem C1_match_state_machine_witness :
    ((runGame zeroOps NewGame [GOp.add "A"]).State = StateWaiting ↔
      (runGame zeroOps NewGame [GOp.add "A"]).Tanks.length < 2) ∧
    ((runGame zeroOps NewGame [GOp.add "A"]).State = StatePlaying ↔
      (runGame zeroOps NewGame [GOp.add "A"]).Tanks.length = 2) := by
  exact (C1_match_state_machine zeroOps [GOp.add "A"]).2.1
    (by simp +decide [runGame, applyGOp, Game.AddPlayer, NewGame, tanksInsert, NewTank,
      MapConfig.GetSpawnPoints, DefaultMap, StateWaiting, StatePlaying, StateGameOver])

end Tankio
